import Mathlib

/-!
Shallow embedding of the auction settlement core of the EtherMon marketplace
(Flask backend: app.py, services/auction_service.py, services/bid_service.py,
repositories, jobs/auction_processor.py).

Tables are lists of records; SQL statements become list operations.  Python
floats are modelled as rationals.  ISO timestamps are modelled as rationals
compared with the same order.  A settlement that raises is an Except.error;
an error result means the enclosing request transaction was never committed,
so the database is unchanged.

Python truthiness matters in the source ("if winner_id and winning_amount
and reserve_price") and is modelled faithfully: an id or amount equal to 0
is falsy, None is falsy.
-/

namespace EtherMon

/-- Row of the auctions table (seller_id is read with dict.get, hence Option). -/
structure Auction where
  id : Nat
  artworkId : Nat
  sellerId : Option Nat
  startPrice : Rat
  reservePrice : Option Rat
  endTime : Rat
  status : String
  winnerId : Option Nat
deriving Repr, DecidableEq

/-- Row of the bids table. -/
structure Bid where
  id : Nat
  auctionId : Nat
  bidderId : Nat
  amount : Rat
  isActive : Bool
deriving Repr, DecidableEq

/-- Row of the balances table. -/
structure BalanceRow where
  userId : Nat
  available : Rat
  pending : Rat
deriving Repr, DecidableEq

/-- Row of the transactions table (audit ledger). -/
structure Txn where
  userId : Nat
  type : String
  amount : Rat
  status : String
  artworkId : Option Nat
deriving Repr, DecidableEq

/-- Row of the artworks table (the fields the settlement core touches). -/
structure Artwork where
  id : Nat
  ownerId : Nat
  isListed : Bool
  listingType : Option String
deriving Repr, DecidableEq

/-- The mutable database state shared by all operations. -/
structure DB where
  auctions : List Auction
  bids : List Bid
  balances : List BalanceRow
  transactions : List Txn
  artworks : List Artwork
deriving Repr, DecidableEq

/-- Config.PLATFORM_FEE_RATE = 0.025. -/
def feeRate : Rat := 25 / 1000

/-- SELECT * FROM balances WHERE user_id = ? (fetchone). -/
def findBalance (db : DB) (u : Nat) : Option BalanceRow :=
  db.balances.find? (fun r => r.userId == u)

/-- Available balance of a user, defaulting to 0 when no row exists. -/
def availOf (db : DB) (u : Nat) : Rat :=
  match findBalance db u with
  | some r => r.available
  | none => 0

/-- Pending balance of a user, defaulting to 0 when no row exists. -/
def pendingOf (db : DB) (u : Nat) : Rat :=
  match findBalance db u with
  | some r => r.pending
  | none => 0

/-- UPDATE balances SET ... WHERE user_id = ? (applies f to every matching row). -/
def updateBalance (db : DB) (u : Nat) (f : BalanceRow → BalanceRow) : DB :=
  { db with balances := db.balances.map (fun r => if r.userId == u then f r else r) }

/-- INSERT OR IGNORE INTO balances (user_id) VALUES (?). -/
def ensureBalanceRow (db : DB) (u : Nat) : DB :=
  if (findBalance db u).isSome then db
  else { db with balances := db.balances ++ [⟨u, 0, 0⟩] }

/-- INSERT INTO transactions ... -/
def insertTxn (db : DB) (t : Txn) : DB :=
  { db with transactions := db.transactions ++ [t] }

/-- UPDATE transactions SET status = newStatus WHERE user_id = ? AND artwork_id = ?
AND type IN ('bid','bid_increase') AND status = 'pending'.  When the artwork id
parameter is NULL the SQL equality matches no row. -/
def flipPendingBidTxns (db : DB) (u : Nat) (artOpt : Option Nat) (newStatus : String) : DB :=
  { db with transactions := db.transactions.map (fun t =>
      if artOpt.isSome && t.userId == u && t.artworkId == artOpt &&
         (t.type == "bid" || t.type == "bid_increase") && t.status == "pending"
      then { t with status := newStatus } else t) }

/-- UPDATE auctions SET ... WHERE id = ?. -/
def updateAuctionRows (db : DB) (auctionId : Nat) (f : Auction → Auction) : DB :=
  { db with auctions := db.auctions.map (fun a => if a.id == auctionId then f a else a) }

/-- UPDATE artworks SET ... WHERE id = ?. -/
def updateArtworkRows (db : DB) (artworkId : Nat) (f : Artwork → Artwork) : DB :=
  { db with artworks := db.artworks.map (fun a => if a.id == artworkId then f a else a) }

/-- SELECT * FROM artworks WHERE id = ? (fetchone). -/
def findArtwork (db : DB) (id : Nat) : Option Artwork :=
  db.artworks.find? (fun a => a.id == id)

/-- UPDATE bids SET is_active = 0 WHERE auction_id = ? AND bidder_id = ? AND is_active = 1. -/
def deactivateBidderBids (db : DB) (auctionId bidderId : Nat) : DB :=
  { db with bids := db.bids.map (fun b =>
      if b.auctionId == auctionId && b.bidderId == bidderId && b.isActive
      then { b with isActive := false } else b) }

/-- The active bids of one auction: WHERE auction_id = ? AND is_active = 1. -/
def activeFor (bids : List Bid) (auctionId : Nat) : List Bid :=
  bids.filter (fun b => b.auctionId == auctionId && b.isActive)

/-- SELECT MAX(amount) FROM bids WHERE auction_id = ? AND is_active = 1. -/
def currentBid (bids : List Bid) (auctionId : Nat) : Option Rat :=
  ((activeFor bids auctionId).map (fun b => b.amount)).max?

/-- SELECT bidder_id, amount FROM bids WHERE auction_id = ? AND is_active = 1
ORDER BY amount DESC LIMIT 1 (first row among ties). -/
def findWinningBid (bids : List Bid) (auctionId : Nat) : Option Bid :=
  (activeFor bids auctionId).foldl
    (fun best b =>
      match best with
      | none => some b
      | some c => if b.amount > c.amount then some b else some c)
    none

/-- SUM(amount) of one bidder's active bids on one auction. -/
def activeTotalOf (bids : List Bid) (auctionId bidderId : Nat) : Rat :=
  ((bids.filter (fun b => b.auctionId == auctionId && b.bidderId == bidderId && b.isActive)).map
    (fun b => b.amount)).sum

/-- SELECT bidder_id, SUM(amount) FROM bids WHERE auction_id = ? AND is_active = 1
GROUP BY bidder_id (the grouped rows, one per distinct bidder). -/
def allGroups (bids : List Bid) (auctionId : Nat) : List (Nat × Rat) :=
  (((activeFor bids auctionId).map (fun b => b.bidderId)).dedup).map
    (fun u => (u, activeTotalOf bids auctionId u))

/-- Same grouped query with AND bidder_id != ? excluding the winner. -/
def loserGroups (bids : List Bid) (auctionId winnerId : Nat) : List (Nat × Rat) :=
  ((((activeFor bids auctionId).filter (fun b => !(b.bidderId == winnerId))).map
      (fun b => b.bidderId)).dedup).map
    (fun u => (u, activeTotalOf bids auctionId u))

/-- One iteration of the settlement refund loops (identical in
app._process_ended_auction and AuctionService._refund_bidder): credit the
total to available and clamp-subtract it from pending (inserting a fresh row
holding the total when the bidder has none), cancel the pending bid and
bid_increase transactions, insert a completed bid_refund transaction, and
deactivate this bidder's bids for this auction. -/
def refundBidderStep (db : DB) (auctionId artworkId bidderId : Nat) (total : Rat) : DB :=
  let db1 :=
    match findBalance db bidderId with
    | some _ =>
        updateBalance db bidderId (fun r =>
          { r with available := r.available + total, pending := max 0 (r.pending - total) })
    | none => { db with balances := db.balances ++ [⟨bidderId, total, 0⟩] }
  let db2 := flipPendingBidTxns db1 bidderId (some artworkId) "cancelled"
  let db3 := insertTxn db2 ⟨bidderId, "bid_refund", total, "completed", some artworkId⟩
  deactivateBidderBids db3 auctionId bidderId

/-- The refund loop over the grouped rows fetched before the loop started. -/
def refundGroups (db : DB) (auctionId artworkId : Nat) (groups : List (Nat × Rat)) : DB :=
  groups.foldl (fun d g => refundBidderStep d auctionId artworkId g.1 g.2) db

/-- Buyer balance update of the app.py sale path (app.py 234-263): the read
row's pending is clamped down by the winning amount and written back as an
absolute value; a missing row becomes a fresh zero row. -/
def spendPendingApp (db : DB) (u : Nat) (amt : Rat) : DB :=
  match findBalance db u with
  | some b => updateBalance db u (fun r => { r with pending := max 0 (b.pending - amt) })
  | none => { db with balances := db.balances ++ [⟨u, 0, 0⟩] }

/-- Seller balance update of the app.py sale path (app.py 265-288): the
proceeds are added with an incremental SQL update. -/
def creditSellerApp (db : DB) (u : Nat) (receives : Rat) : DB :=
  match findBalance db u with
  | some _ => updateBalance db u (fun r => { r with available := r.available + receives })
  | none => { db with balances := db.balances ++ [⟨u, receives, 0⟩] }

/-- Buyer balance update of the service sale path (auction_service.py
163-173): new_pending = max(0, pending - amount) is computed from the read
row and then passed to BalanceRepository.update, which renders a numeric
value as "pending_balance = pending_balance + ?", so the clamped value is
ADDED to the column instead of replacing it. -/
def spendPendingSvc (db : DB) (u : Nat) (amt : Rat) : DB :=
  match findBalance db u with
  | some b => updateBalance db u (fun r => { r with pending := r.pending + max 0 (b.pending - amt) })
  | none => { db with balances := db.balances ++ [⟨u, 0, 0⟩] }

/-- Seller balance update of the service sale path (auction_service.py
176-185): available + seller_receives is computed from the read row and
passed to BalanceRepository.update, which ADDS it to the column. -/
def creditSellerSvc (db : DB) (u : Nat) (receives : Rat) : DB :=
  match findBalance db u with
  | some b => updateBalance db u (fun r => { r with available := r.available + (b.available + receives) })
  | none => { db with balances := db.balances ++ [⟨u, receives, 0⟩] }

/-- Python truthiness of the seller lookup: auction.get("seller_id") with
a falsy value falls back to the artwork owner and raises when the artwork
row is missing (app.py 181-190, auction_service.py 88-94). -/
def resolveSellerId (db : DB) (auction : Auction) : Except String Nat :=
  match auction.sellerId with
  | some s =>
      if s == 0 then
        match findArtwork db auction.artworkId with
        | some ar => Except.ok ar.ownerId
        | none => Except.error "Artwork not found"
      else Except.ok s
  | none =>
      match findArtwork db auction.artworkId with
      | some ar => Except.ok ar.ownerId
      | none => Except.error "Artwork not found"

/-- The reserve-not-met test, with Python truthiness of
"if winner_id and winning_amount and reserve_price: if winning_amount < reserve_price"
(identical in app.py 206-212 and auction_service.py 102-107). -/
def reserveNotMetFlag (wb : Option Bid) (reservePrice : Option Rat) : Bool :=
  match wb, reservePrice with
  | some b, some rp =>
      b.bidderId != 0 && decide (b.amount ≠ 0) && decide (rp ≠ 0) && decide (b.amount < rp)
  | _, _ => false

/-- Truthiness of "winner_id and winning_amount". -/
def winTruthy (wb : Option Bid) : Bool :=
  match wb with
  | some b => b.bidderId != 0 && decide (b.amount ≠ 0)
  | none => false

/-- app.py _process_ended_auction: close the auction (no status guard), then
successful sale, reserve-not-met or no-bids; the trailing refund of losing
bidders runs when final_winner_id is truthy.  Price-history, activity and
notification writes carry no ledger state and are omitted. -/
def processEndedAuctionApp (db : DB) (auction : Auction) : Except String DB :=
  let aId := auction.id
  let artId := auction.artworkId
  match resolveSellerId db auction with
  | Except.error e => Except.error e
  | Except.ok sellerId =>
    let wb := findWinningBid db.bids aId
    let reserveNotMet := reserveNotMetFlag wb auction.reservePrice
    let finalWinner : Option Nat := if reserveNotMet then none else wb.map (fun b => b.bidderId)
    let db1 := updateAuctionRows db aId
      (fun a => { a with status := "closed", winnerId := finalWinner })
    if winTruthy wb && !reserveNotMet then
      match wb with
      | none => Except.error "unreachable"
      | some w =>
        let amt := w.amount
        let fee := amt * feeRate
        let sellerReceives := amt - fee
        let db2 := updateArtworkRows db1 artId
          (fun a => { a with ownerId := w.bidderId, isListed := false })
        let db3 := spendPendingApp db2 w.bidderId amt
        let db4 := creditSellerApp db3 sellerId sellerReceives
        let db5 := flipPendingBidTxns db4 w.bidderId (some artId) "completed"
        let db6 := insertTxn db5 ⟨w.bidderId, "purchase", amt, "completed", some artId⟩
        let db7 := insertTxn db6 ⟨sellerId, "sale", sellerReceives, "completed", some artId⟩
        match finalWinner with
        | some fw =>
            if fw ≠ 0 then
              Except.ok (refundGroups db7 aId artId (loserGroups db7.bids aId fw))
            else Except.ok db7
        | none => Except.ok db7
    else
      let db2 := updateArtworkRows db1 artId
        (fun a => { a with isListed := false, listingType := none })
      if reserveNotMet then
        Except.ok (refundGroups db2 aId artId (allGroups db2.bids aId))
      else
        match finalWinner with
        | some fw =>
            if fw ≠ 0 then
              Except.ok (refundGroups db2 aId artId (loserGroups db2.bids aId fw))
            else Except.ok db2
        | none => Except.ok db2

/-- AuctionService.process_ended_auction (the scheduler path).  Identical to
the app.py version except: the sale branch tests "final_winner_id and
winning_amount"; the buyer and seller balance updates go through
BalanceRepository.update, which renders numeric values as
"column = column + ?", so the absolute values computed by
_process_successful_sale are ADDED to the columns; the winner's pending bid
transactions are never flipped to completed; the no-sale paths delist the
artwork without clearing listing_type. -/
def processEndedAuctionSvc (db : DB) (auction : Auction) : Except String DB :=
  let aId := auction.id
  let artId := auction.artworkId
  match resolveSellerId db auction with
  | Except.error e => Except.error e
  | Except.ok sellerId =>
    let wb := findWinningBid db.bids aId
    let reserveNotMet := reserveNotMetFlag wb auction.reservePrice
    let finalWinner : Option Nat := if reserveNotMet then none else wb.map (fun b => b.bidderId)
    let db1 := updateAuctionRows db aId
      (fun a => { a with status := "closed", winnerId := finalWinner })
    let finalTruthy := match finalWinner with | some w => w != 0 | none => false
    if finalTruthy && winTruthy wb then
      match wb with
      | none => Except.error "unreachable"
      | some w =>
        let amt := w.amount
        let fee := amt * feeRate
        let sellerReceives := amt - fee
        let db2 := updateArtworkRows db1 artId
          (fun a => { a with ownerId := w.bidderId, isListed := false })
        let db3 := spendPendingSvc db2 w.bidderId amt
        let db4 := creditSellerSvc db3 sellerId sellerReceives
        let db5 := insertTxn db4 ⟨w.bidderId, "purchase", amt, "completed", some artId⟩
        let db6 := insertTxn db5 ⟨sellerId, "sale", sellerReceives, "completed", some artId⟩
        Except.ok (refundGroups db6 aId artId (loserGroups db6.bids aId w.bidderId))
    else if reserveNotMet then
      let db2 := updateArtworkRows db1 artId (fun a => { a with isListed := false })
      Except.ok (refundGroups db2 aId artId (allGroups db2.bids aId))
    else
      let db2 := updateArtworkRows db1 artId (fun a => { a with isListed := false })
      Except.ok db2

/-- The writes of the app.py successful-sale branch before the trailing
refund of losing bidders (close, ownership transfer, buyer and seller
balance updates, flip of the winner's pending bid transactions, purchase
and sale transactions). -/
def saleWritesApp (db : DB) (a : Auction) (s : Nat) (w : Bid) : DB :=
  insertTxn (insertTxn (flipPendingBidTxns
    (creditSellerApp (spendPendingApp
      (updateArtworkRows
        (updateAuctionRows db a.id
          (fun x => { x with status := "closed", winnerId := some w.bidderId }))
        a.artworkId (fun x => { x with ownerId := w.bidderId, isListed := false }))
      w.bidderId w.amount) s (w.amount - w.amount * feeRate))
    w.bidderId (some a.artworkId) "completed")
    ⟨w.bidderId, "purchase", w.amount, "completed", some a.artworkId⟩)
    ⟨s, "sale", w.amount - w.amount * feeRate, "completed", some a.artworkId⟩

/-- The full state after the app.py successful-sale path. -/
def saleResultApp (db : DB) (a : Auction) (s : Nat) (w : Bid) : DB :=
  refundGroups (saleWritesApp db a s w) a.id a.artworkId
    (loserGroups (saleWritesApp db a s w).bids a.id w.bidderId)

/-- The writes of the service successful-sale branch before the refund of
losing bidders: same as the app.py branch but with the broken incremental
balance updates and without the winner transaction flip. -/
def saleWritesSvc (db : DB) (a : Auction) (s : Nat) (w : Bid) : DB :=
  insertTxn (insertTxn
    (creditSellerSvc (spendPendingSvc
      (updateArtworkRows
        (updateAuctionRows db a.id
          (fun x => { x with status := "closed", winnerId := some w.bidderId }))
        a.artworkId (fun x => { x with ownerId := w.bidderId, isListed := false }))
      w.bidderId w.amount) s (w.amount - w.amount * feeRate))
    ⟨w.bidderId, "purchase", w.amount, "completed", some a.artworkId⟩)
    ⟨s, "sale", w.amount - w.amount * feeRate, "completed", some a.artworkId⟩

/-- The full state after the service successful-sale path. -/
def saleResultSvc (db : DB) (a : Auction) (s : Nat) (w : Bid) : DB :=
  refundGroups (saleWritesSvc db a s w) a.id a.artworkId
    (loserGroups (saleWritesSvc db a s w).bids a.id w.bidderId)

/-- The writes of the service reserve-not-met branch before the refunds:
close with winner NULL and delist. -/
def reserveWritesSvc (db : DB) (a : Auction) : DB :=
  updateArtworkRows
    (updateAuctionRows db a.id (fun x => { x with status := "closed", winnerId := none }))
    a.artworkId (fun x => { x with isListed := false })

/-- The full state after the service reserve-not-met path: every active
bidder of the auction is refunded. -/
def reserveResultSvc (db : DB) (a : Auction) : DB :=
  refundGroups (reserveWritesSvc db a) a.id a.artworkId
    (allGroups (reserveWritesSvc db a).bids a.id)

/-- app.py refund_active_bids: refund every active bid of one auction (used by
cancel_auction).  The artwork id comes from a join and is NULL when the
auction or artwork row is missing; grouped rows are fetched before the loop;
only at the end are all of this auction's active bids deactivated at once. -/
def refundActiveBids (db : DB) (auctionId : Nat) : DB :=
  let artOpt : Option Nat :=
    match db.auctions.find? (fun a => a.id == auctionId) with
    | some au => (findArtwork db au.artworkId).map (fun ar => ar.id)
    | none => none
  let groups := allGroups db.bids auctionId
  let db1 := groups.foldl
    (fun d g =>
      let d1 := ensureBalanceRow d g.1
      let d2 := updateBalance d1 g.1 (fun r =>
        { r with available := r.available + g.2,
                 pending := if r.pending > g.2 then r.pending - g.2 else 0 })
      let d3 := flipPendingBidTxns d2 g.1 artOpt "cancelled"
      insertTxn d3 ⟨g.1, "bid_refund", g.2, "completed", artOpt⟩)
    db
  { db1 with bids := db1.bids.map (fun b =>
      if b.auctionId == auctionId && b.isActive then { b with isActive := false } else b) }

/-- app.py cancel_auction: no status guard — any existing auction, whatever
its status, has its active bids refunded and its status set. -/
def cancelAuction (db : DB) (auctionId : Nat) (status : String) : DB :=
  match db.auctions.find? (fun a => a.id == auctionId) with
  | none => db
  | some _ =>
      let db1 := refundActiveBids db auctionId
      updateAuctionRows db1 auctionId (fun a => { a with status := status })

/-- app.py close_auction endpoint: fetch by id and seller (no status filter),
run _process_ended_auction, commit on success and roll back on failure. -/
def closeAuction (db : DB) (auctionId userId : Nat) : Except String DB :=
  match db.auctions.find? (fun a => a.id == auctionId && a.sellerId == some userId) with
  | none => Except.error "Auction not found"
  | some auction => processEndedAuctionApp db auction

/-- SELECT * FROM auctions WHERE status = 'open' AND end_time <= now. -/
def selectEnded (db : DB) (now : Rat) : List Auction :=
  db.auctions.filter (fun a => a.status == "open" && decide (a.endTime ≤ now))

/-- The per-auction loop of process_ended_auctions_job: all auctions share one
connection whose transaction is committed only after the loop, so a rollback
on failure resets the working state to the last committed state, and the ids
of auctions processed before the rollback stay counted. -/
def runJobLoop (committed : DB) (working : DB) : List Auction → DB × List Nat
  | [] => (working, [])
  | a :: rest =>
      match processEndedAuctionSvc working a with
      | Except.ok w =>
          let r := runJobLoop committed w rest
          (r.1, a.id :: r.2)
      | Except.error _ => runJobLoop committed committed rest

/-- jobs/auction_processor.process_ended_auctions_job: fetch the expired open
auctions once, then run the loop and commit. -/
def processEndedAuctionsJob (db : DB) (now : Rat) : DB × List Nat :=
  runJobLoop db db (selectEnded db now)

/-- Next autoincrement id for the bids table. -/
def nextBidId (db : DB) : Nat :=
  (db.bids.map (fun b => b.id)).foldl max 0 + 1

/-- Python truthiness of the admission floor
"min_bid = auction[current_bid] or auction[start_price]": a NULL or zero
current high bid falls back to start_price. -/
def minBidOf (db : DB) (a : Auction) : Rat :=
  match currentBid db.bids a.id with
  | some c => if c ≠ 0 then c else a.startPrice
  | none => a.startPrice

/-- POST /api/artworks/id/bids (place_bid_on_artwork): the live bid-admission
path.  Validation happens before any write; an error result means the request
transaction was never committed.  The min_bid fallback models Python's
"auction[current_bid] or auction[start_price]" truthiness -/
def placeBidOnArtwork (db : DB) (artworkId userId : Nat) (amount : Rat) (now : Rat) :
    Except String DB :=
  match db.auctions.find? (fun a => a.artworkId == artworkId && a.status == "open") with
  | none => Except.error "No active auction for this artwork"
  | some auction =>
    if auction.endTime ≤ now then Except.error "Auction has already ended"
    else if auction.sellerId = some userId then Except.error "Cannot bid on your own artwork"
    else
      let minBid : Rat := minBidOf db auction
      match db.bids.find? (fun b =>
          b.auctionId == auction.id && b.bidderId == userId && b.isActive) with
      | some e =>
          let db1 := { db with bids := db.bids.map (fun b =>
            if b.auctionId == auction.id && b.bidderId == userId && b.id != e.id && b.isActive
            then { b with isActive := false } else b) }
          let additional := amount - e.amount
          if additional ≤ 0 then Except.error "New bid must be higher than current bid"
          else if availOf db1 userId < additional then Except.error "Insufficient balance"
          else
            let db2 := ensureBalanceRow db1 userId
            let db3 := updateBalance db2 userId (fun r =>
              { r with available := r.available - additional, pending := r.pending + additional })
            let db4 := { db3 with bids := db3.bids.map (fun b =>
              if b.id == e.id then { b with amount := amount } else b) }
            Except.ok (insertTxn db4 ⟨userId, "bid_increase", additional, "pending", some artworkId⟩)
      | none =>
          if availOf db userId < amount then Except.error "Insufficient balance"
          else if amount ≤ minBid then Except.error "Bid must exceed current price"
          else
            let db1 := deactivateBidderBids db auction.id userId
            let db2 := ensureBalanceRow db1 userId
            let db3 := updateBalance db2 userId (fun r =>
              { r with available := r.available - amount, pending := r.pending + amount })
            let db4 := { db3 with bids :=
              db3.bids ++ [⟨nextBidId db3, auction.id, userId, amount, true⟩] }
            Except.ok (insertTxn db4 ⟨userId, "bid", amount, "pending", some artworkId⟩)

/-- Sum of available + pending over all balance rows. -/
def totalMoney (db : DB) : Rat :=
  (db.balances.map (fun r => r.available + r.pending)).sum

/-- Platform fees extracted so far, derived from the audit ledger: each
successful sale records the full price as a completed purchase and the
after-fee proceeds as a completed sale, so their difference is the fee sink. -/
def feesExtracted (db : DB) : Rat :=
  ((db.transactions.filter (fun t => t.type == "purchase" && t.status == "completed")).map
      (fun t => t.amount)).sum
  - ((db.transactions.filter (fun t => t.type == "sale" && t.status == "completed")).map
      (fun t => t.amount)).sum

/-- Concrete state for C1: one open auction, one active bid of 200 by user 3,
the bid amount already held in pending, seller 2. -/
def exC1db : DB :=
  { auctions := [⟨1, 10, some 2, 100, none, 50, "open", none⟩],
    bids := [⟨1, 1, 3, 200, true⟩],
    balances := [⟨3, 0, 200⟩, ⟨2, 0, 0⟩],
    transactions := [⟨3, "bid", 200, "pending", some 10⟩],
    artworks := [⟨10, 2, true, some "auction"⟩] }

/-- Concrete state for C2: like exC1db but the seller holds 100 available, so
the doubled seller credit of the service sale path is visible. -/
def exC2db : DB :=
  { auctions := [⟨1, 10, some 2, 100, none, 50, "open", none⟩],
    bids := [⟨1, 1, 3, 200, true⟩],
    balances := [⟨3, 0, 200⟩, ⟨2, 100, 0⟩],
    transactions := [⟨3, "bid", 200, "pending", some 10⟩],
    artworks := [⟨10, 2, true, some "auction"⟩] }

/-- The auction row of exC2db as fetched by the scheduler query. -/
def exC2auction : Auction := ⟨1, 10, some 2, 100, none, 50, "open", none⟩

/-- Concrete state for C4: auction 1 settles cleanly (no bids); auction 2 has
no seller_id and a dangling artwork reference, so its settlement raises. -/
def exC4db : DB :=
  { auctions := [⟨1, 10, some 2, 100, none, 50, "open", none⟩,
                 ⟨2, 99, none, 100, none, 50, "open", none⟩],
    bids := [],
    balances := [],
    transactions := [],
    artworks := [⟨10, 2, true, some "auction"⟩] }

/-- Concrete state for C7: an open auction with start_price 100 and no bids;
user 3 holds 100 available. -/
def exC7db : DB :=
  { auctions := [⟨1, 10, some 2, 100, none, 200, "open", none⟩],
    bids := [],
    balances := [⟨3, 500, 0⟩],
    transactions := [],
    artworks := [⟨10, 2, true, some "auction"⟩] }

/-- Concrete state for C8, identical in shape to exC2db. -/
def exC8db : DB :=
  { auctions := [⟨1, 10, some 2, 100, none, 50, "open", none⟩,],
    bids := [⟨1, 1, 3, 200, true⟩],
    balances := [⟨3, 0, 200⟩, ⟨2, 0, 0⟩],
    transactions := [⟨3, "bid", 200, "pending", some 10⟩],
    artworks := [⟨10, 2, true, some "auction"⟩] }

/-- The auction row of exC8db as fetched by the scheduler query. -/
def exC8auction : Auction := ⟨1, 10, some 2, 100, none, 50, "open", none⟩

/-- The auction row of exC1db as fetched by the settlement queries. -/
def exC1auction : Auction := ⟨1, 10, some 2, 100, none, 50, "open", none⟩

/-- Concrete state for the C3 witness: reserve price 300, highest active bid
200 by user 3, a second active bid of 150 by user 4, both amounts held in
pending on top of nonzero available balances. -/
def exC3db : DB :=
  { auctions := [⟨1, 10, some 2, 100, some 300, 50, "open", none⟩],
    bids := [⟨1, 1, 3, 200, true⟩, ⟨2, 1, 4, 150, true⟩],
    balances := [⟨3, 10, 200⟩, ⟨4, 0, 150⟩, ⟨2, 7, 0⟩],
    transactions := [⟨3, "bid", 200, "pending", some 10⟩, ⟨4, "bid", 150, "pending", some 10⟩],
    artworks := [⟨10, 2, true, some "auction"⟩] }

/-- The auction row of exC3db. -/
def exC3auction : Auction := ⟨1, 10, some 2, 100, some 300, 50, "open", none⟩

/-- Concrete state for the C6 witness: user 5 leads with 500, user 3 holds an
active bid of 100 and 60 available. -/
def exC6db : DB :=
  { auctions := [⟨1, 10, some 2, 100, none, 200, "open", none⟩],
    bids := [⟨1, 1, 5, 500, true⟩, ⟨2, 1, 3, 100, true⟩],
    balances := [⟨5, 0, 500⟩, ⟨3, 60, 100⟩],
    transactions := [⟨5, "bid", 500, "pending", some 10⟩, ⟨3, "bid", 100, "pending", some 10⟩],
    artworks := [⟨10, 2, true, some "auction"⟩] }

/-- Concrete state for the C10 witness: winner 3 at 200, loser 4 at 150. -/
def exC10db : DB :=
  { auctions := [⟨1, 10, some 2, 100, none, 50, "open", none⟩],
    bids := [⟨1, 1, 3, 200, true⟩, ⟨2, 1, 4, 150, true⟩],
    balances := [⟨3, 0, 200⟩, ⟨4, 0, 150⟩, ⟨2, 0, 0⟩],
    transactions := [⟨3, "bid", 200, "pending", some 10⟩, ⟨4, "bid", 150, "pending", some 10⟩],
    artworks := [⟨10, 2, true, some "auction"⟩] }

/-- The auction row of exC10db. -/
def exC10auction : Auction := ⟨1, 10, some 2, 100, none, 50, "open", none⟩

/-- Concrete state for C9: an auction already closed with winner 3 whose
winning bid is still active (the state a successful settlement leaves). -/
def exC9db : DB :=
  { auctions := [⟨1, 10, some 2, 100, none, 50, "closed", some 3⟩],
    bids := [⟨1, 1, 3, 200, true⟩],
    balances := [⟨3, 0, 0⟩],
    transactions := [],
    artworks := [⟨10, 3, false, some "auction"⟩] }

/-! Frame lemmas: which tables each primitive leaves untouched. -/

theorem refundGroups_cons (db : DB) (aId artId : Nat) (g : Nat × Rat) (gs : List (Nat × Rat)) :
    refundGroups db aId artId (g :: gs)
      = refundGroups (refundBidderStep db aId artId g.1 g.2) aId artId gs := rfl

@[simp] theorem updateBalance_auctions (db : DB) (u : Nat) (f : BalanceRow → BalanceRow) :
    (updateBalance db u f).auctions = db.auctions := rfl
@[simp] theorem updateBalance_bids (db : DB) (u : Nat) (f : BalanceRow → BalanceRow) :
    (updateBalance db u f).bids = db.bids := rfl
@[simp] theorem updateBalance_transactions (db : DB) (u : Nat) (f : BalanceRow → BalanceRow) :
    (updateBalance db u f).transactions = db.transactions := rfl
@[simp] theorem updateBalance_artworks (db : DB) (u : Nat) (f : BalanceRow → BalanceRow) :
    (updateBalance db u f).artworks = db.artworks := rfl

@[simp] theorem ensureBalanceRow_auctions (db : DB) (u : Nat) :
    (ensureBalanceRow db u).auctions = db.auctions := by
  unfold ensureBalanceRow; split <;> rfl
@[simp] theorem ensureBalanceRow_bids (db : DB) (u : Nat) :
    (ensureBalanceRow db u).bids = db.bids := by
  unfold ensureBalanceRow; split <;> rfl
@[simp] theorem ensureBalanceRow_transactions (db : DB) (u : Nat) :
    (ensureBalanceRow db u).transactions = db.transactions := by
  unfold ensureBalanceRow; split <;> rfl
@[simp] theorem ensureBalanceRow_artworks (db : DB) (u : Nat) :
    (ensureBalanceRow db u).artworks = db.artworks := by
  unfold ensureBalanceRow; split <;> rfl

@[simp] theorem insertTxn_auctions (db : DB) (t : Txn) : (insertTxn db t).auctions = db.auctions := rfl
@[simp] theorem insertTxn_bids (db : DB) (t : Txn) : (insertTxn db t).bids = db.bids := rfl
@[simp] theorem insertTxn_balances (db : DB) (t : Txn) : (insertTxn db t).balances = db.balances := rfl
@[simp] theorem insertTxn_artworks (db : DB) (t : Txn) : (insertTxn db t).artworks = db.artworks := rfl

@[simp] theorem flipPendingBidTxns_auctions (db : DB) (u : Nat) (o : Option Nat) (s : String) :
    (flipPendingBidTxns db u o s).auctions = db.auctions := rfl
@[simp] theorem flipPendingBidTxns_bids (db : DB) (u : Nat) (o : Option Nat) (s : String) :
    (flipPendingBidTxns db u o s).bids = db.bids := rfl
@[simp] theorem flipPendingBidTxns_balances (db : DB) (u : Nat) (o : Option Nat) (s : String) :
    (flipPendingBidTxns db u o s).balances = db.balances := rfl
@[simp] theorem flipPendingBidTxns_artworks (db : DB) (u : Nat) (o : Option Nat) (s : String) :
    (flipPendingBidTxns db u o s).artworks = db.artworks := rfl

@[simp] theorem updateAuctionRows_bids (db : DB) (i : Nat) (f : Auction → Auction) :
    (updateAuctionRows db i f).bids = db.bids := rfl
@[simp] theorem updateAuctionRows_balances (db : DB) (i : Nat) (f : Auction → Auction) :
    (updateAuctionRows db i f).balances = db.balances := rfl
@[simp] theorem updateAuctionRows_transactions (db : DB) (i : Nat) (f : Auction → Auction) :
    (updateAuctionRows db i f).transactions = db.transactions := rfl
@[simp] theorem updateAuctionRows_artworks (db : DB) (i : Nat) (f : Auction → Auction) :
    (updateAuctionRows db i f).artworks = db.artworks := rfl

@[simp] theorem updateArtworkRows_auctions (db : DB) (i : Nat) (f : Artwork → Artwork) :
    (updateArtworkRows db i f).auctions = db.auctions := rfl
@[simp] theorem updateArtworkRows_bids (db : DB) (i : Nat) (f : Artwork → Artwork) :
    (updateArtworkRows db i f).bids = db.bids := rfl
@[simp] theorem updateArtworkRows_balances (db : DB) (i : Nat) (f : Artwork → Artwork) :
    (updateArtworkRows db i f).balances = db.balances := rfl
@[simp] theorem updateArtworkRows_transactions (db : DB) (i : Nat) (f : Artwork → Artwork) :
    (updateArtworkRows db i f).transactions = db.transactions := rfl

@[simp] theorem deactivateBidderBids_auctions (db : DB) (a u : Nat) :
    (deactivateBidderBids db a u).auctions = db.auctions := rfl
@[simp] theorem deactivateBidderBids_balances (db : DB) (a u : Nat) :
    (deactivateBidderBids db a u).balances = db.balances := rfl
@[simp] theorem deactivateBidderBids_transactions (db : DB) (a u : Nat) :
    (deactivateBidderBids db a u).transactions = db.transactions := rfl
@[simp] theorem deactivateBidderBids_artworks (db : DB) (a u : Nat) :
    (deactivateBidderBids db a u).artworks = db.artworks := rfl

@[simp] theorem spendPendingApp_auctions (db : DB) (u : Nat) (amt : Rat) :
    (spendPendingApp db u amt).auctions = db.auctions := by
  unfold spendPendingApp; cases findBalance db u <;> rfl
@[simp] theorem spendPendingApp_bids (db : DB) (u : Nat) (amt : Rat) :
    (spendPendingApp db u amt).bids = db.bids := by
  unfold spendPendingApp; cases findBalance db u <;> rfl
@[simp] theorem spendPendingApp_transactions (db : DB) (u : Nat) (amt : Rat) :
    (spendPendingApp db u amt).transactions = db.transactions := by
  unfold spendPendingApp; cases findBalance db u <;> rfl
@[simp] theorem spendPendingApp_artworks (db : DB) (u : Nat) (amt : Rat) :
    (spendPendingApp db u amt).artworks = db.artworks := by
  unfold spendPendingApp; cases findBalance db u <;> rfl

@[simp] theorem creditSellerApp_auctions (db : DB) (u : Nat) (x : Rat) :
    (creditSellerApp db u x).auctions = db.auctions := by
  unfold creditSellerApp; cases findBalance db u <;> rfl
@[simp] theorem creditSellerApp_bids (db : DB) (u : Nat) (x : Rat) :
    (creditSellerApp db u x).bids = db.bids := by
  unfold creditSellerApp; cases findBalance db u <;> rfl
@[simp] theorem creditSellerApp_transactions (db : DB) (u : Nat) (x : Rat) :
    (creditSellerApp db u x).transactions = db.transactions := by
  unfold creditSellerApp; cases findBalance db u <;> rfl
@[simp] theorem creditSellerApp_artworks (db : DB) (u : Nat) (x : Rat) :
    (creditSellerApp db u x).artworks = db.artworks := by
  unfold creditSellerApp; cases findBalance db u <;> rfl

@[simp] theorem spendPendingSvc_auctions (db : DB) (u : Nat) (amt : Rat) :
    (spendPendingSvc db u amt).auctions = db.auctions := by
  unfold spendPendingSvc; cases findBalance db u <;> rfl
@[simp] theorem spendPendingSvc_bids (db : DB) (u : Nat) (amt : Rat) :
    (spendPendingSvc db u amt).bids = db.bids := by
  unfold spendPendingSvc; cases findBalance db u <;> rfl
@[simp] theorem spendPendingSvc_transactions (db : DB) (u : Nat) (amt : Rat) :
    (spendPendingSvc db u amt).transactions = db.transactions := by
  unfold spendPendingSvc; cases findBalance db u <;> rfl
@[simp] theorem spendPendingSvc_artworks (db : DB) (u : Nat) (amt : Rat) :
    (spendPendingSvc db u amt).artworks = db.artworks := by
  unfold spendPendingSvc; cases findBalance db u <;> rfl

@[simp] theorem creditSellerSvc_auctions (db : DB) (u : Nat) (x : Rat) :
    (creditSellerSvc db u x).auctions = db.auctions := by
  unfold creditSellerSvc; cases findBalance db u <;> rfl
@[simp] theorem creditSellerSvc_bids (db : DB) (u : Nat) (x : Rat) :
    (creditSellerSvc db u x).bids = db.bids := by
  unfold creditSellerSvc; cases findBalance db u <;> rfl
@[simp] theorem creditSellerSvc_transactions (db : DB) (u : Nat) (x : Rat) :
    (creditSellerSvc db u x).transactions = db.transactions := by
  unfold creditSellerSvc; cases findBalance db u <;> rfl
@[simp] theorem creditSellerSvc_artworks (db : DB) (u : Nat) (x : Rat) :
    (creditSellerSvc db u x).artworks = db.artworks := by
  unfold creditSellerSvc; cases findBalance db u <;> rfl

@[simp] theorem refundBidderStep_auctions (db : DB) (aId artId u : Nat) (t : Rat) :
    (refundBidderStep db aId artId u t).auctions = db.auctions := by
  unfold refundBidderStep
  cases h : findBalance db u <;>
    simp [h, updateBalance, flipPendingBidTxns, insertTxn, deactivateBidderBids]

@[simp] theorem refundBidderStep_artworks (db : DB) (aId artId u : Nat) (t : Rat) :
    (refundBidderStep db aId artId u t).artworks = db.artworks := by
  unfold refundBidderStep
  cases h : findBalance db u <;>
    simp [h, updateBalance, flipPendingBidTxns, insertTxn, deactivateBidderBids]

@[simp] theorem refundGroups_auctions (aId artId : Nat) :
    ∀ (gs : List (Nat × Rat)) (db : DB), (refundGroups db aId artId gs).auctions = db.auctions
  | [], _ => rfl
  | g :: gs, db => by
    rw [refundGroups_cons, refundGroups_auctions aId artId gs, refundBidderStep_auctions]

@[simp] theorem refundGroups_artworks (aId artId : Nat) :
    ∀ (gs : List (Nat × Rat)) (db : DB), (refundGroups db aId artId gs).artworks = db.artworks
  | [], _ => rfl
  | g :: gs, db => by
    rw [refundGroups_cons, refundGroups_artworks aId artId gs, refundBidderStep_artworks]

/-- Rows matching the id in the close update carry status closed. -/
theorem closed_after_update (db : DB) (aId : Nat) (w : Option Nat) :
    ∀ x ∈ (updateAuctionRows db aId
        (fun a => { a with status := "closed", winnerId := w })).auctions,
      x.id = aId → x.status = "closed" := by
  intro x hx hid
  simp only [updateAuctionRows, List.mem_map] at hx
  obtain ⟨y, _, hy⟩ := hx
  by_cases h : y.id = aId
  · simp [h] at hy
    rw [← hy]
  · have : (y.id == aId) = false := by simp [h]
    rw [this] at hy
    simp at hy
    rw [← hy] at hid
    exact absurd hid h

/-- Every successful run of the app.py settlement closes all auction rows
with the processed id, whatever branch was taken. -/
theorem processEndedAuctionApp_closes (db : DB) (a : Auction) (d : DB)
    (h : processEndedAuctionApp db a = Except.ok d) :
    ∀ x ∈ d.auctions, x.id = a.id → x.status = "closed" := by
  unfold processEndedAuctionApp at h
  cases hres : resolveSellerId db a with
  | error e => rw [hres] at h; exact Except.noConfusion h
  | ok s =>
    rw [hres] at h
    dsimp only at h
    repeat' split at h
    all_goals
      first
        | exact Except.noConfusion h
        | (simp only [Except.ok.injEq] at h
           subst h
           intro x hx hid
           simp only [refundGroups_auctions, updateArtworkRows_auctions, insertTxn_auctions,
             flipPendingBidTxns_auctions, creditSellerApp_auctions, spendPendingApp_auctions] at hx
           exact closed_after_update db a.id _ x hx hid)

/-- A fold whose step preserves the auctions table preserves it overall. -/
theorem foldl_auctions_invariant {β : Type} (step : DB → β → DB)
    (hstep : ∀ d b, (step d b).auctions = d.auctions) :
    ∀ (l : List β) (db : DB), (l.foldl step db).auctions = db.auctions
  | [], _ => rfl
  | b :: l, db => by
    rw [List.foldl_cons, foldl_auctions_invariant step hstep l, hstep]

/-- refund_active_bids never touches the auctions table. -/
theorem refundActiveBids_auctions (db : DB) (aId : Nat) :
    (refundActiveBids db aId).auctions = db.auctions := by
  unfold refundActiveBids
  dsimp only
  exact foldl_auctions_invariant _ (fun d g => by simp) _ db

/-- C1 theorem (amended claim): the only re-settlement protection is the
selection query.  A successful settlement closes every auction row with the
processed id, and therefore that id can never again be returned by the
expired-open-auction selection used by the scheduler job and the
process-ended endpoint; there is no guard inside settlement itself (see the
counterexample for the resulting double-credit on a direct second close). -/
theorem c1_theorem (db : DB) (a : Auction) (d : DB)
    (h : processEndedAuctionApp db a = Except.ok d) :
    (∀ x ∈ d.auctions, x.id = a.id → x.status = "closed") ∧
    ∀ now : Rat, ∀ x ∈ selectEnded d now, x.id ≠ a.id := by
  refine ⟨processEndedAuctionApp_closes db a d h, ?_⟩
  intro now x hx hid
  simp only [selectEnded, List.mem_filter] at hx
  obtain ⟨hmem, hcond⟩ := hx
  have hclosed := processEndedAuctionApp_closes db a d h x hmem hid
  rw [hclosed] at hcond
  simp at hcond

/-- Witness for c1_theorem at the concrete state exC1db. -/
theorem c1_witness :
    ∃ d, processEndedAuctionApp exC1db exC1auction = Except.ok d ∧
      ((∀ x ∈ d.auctions, x.id = exC1auction.id → x.status = "closed") ∧
       ∀ now : Rat, ∀ x ∈ selectEnded d now, x.id ≠ exC1auction.id) :=
  ⟨_, by with_unfolding_all rfl, c1_theorem exC1db exC1auction _ (by with_unfolding_all rfl)⟩

/-- C4 theorem (amended claim): when settlement of the current auction
fails, the shared transaction is rolled back to the last committed state —
discarding every write made earlier in the batch, including earlier
successful settlements — and the loop continues with the remaining auctions
from that committed state; the failure never aborts the batch. -/
theorem c4_theorem (committed working : DB) (b : Auction) (rest : List Auction) (e : String)
    (h : processEndedAuctionSvc working b = Except.error e) :
    runJobLoop committed working (b :: rest) = runJobLoop committed committed rest := by
  rw [runJobLoop, h]

/-- Witness for c4_theorem: auction 2 of exC4db fails (missing seller and
artwork), so the loop drops the working state and continues on the rest. -/
theorem c4_witness :
    runJobLoop exC4db exC4db
        (⟨2, 99, none, 100, none, 50, "open", none⟩
          :: [⟨1, 10, some 2, 100, none, 50, "open", none⟩])
      = runJobLoop exC4db exC4db [⟨1, 10, some 2, 100, none, 50, "open", none⟩] :=
  c4_theorem exC4db exC4db _ _ "Artwork not found" (by with_unfolding_all rfl)

/-- C5 theorem: bid admission on the live route rejects a missing-or-non-open
auction (the lookup filters status = 'open') and rejects an expired auction
(now at or past end_time) before any state change: both paths return an
error, and an error result carries no writes. -/
theorem c5_theorem (db : DB) (artworkId userId : Nat) (amount now : Rat) :
    (db.auctions.find? (fun a => a.artworkId == artworkId && a.status == "open") = none →
      placeBidOnArtwork db artworkId userId amount now
        = Except.error "No active auction for this artwork") ∧
    (∀ a, db.auctions.find? (fun a => a.artworkId == artworkId && a.status == "open") = some a →
      a.endTime ≤ now →
      placeBidOnArtwork db artworkId userId amount now
        = Except.error "Auction has already ended") := by
  constructor
  · intro h
    unfold placeBidOnArtwork
    rw [h]
  · intro a ha hend
    unfold placeBidOnArtwork
    rw [ha]
    simp [hend]

/-- Witness for c5_theorem: no auction exists for artwork 99, and the auction
of exC7db (end_time 200) is expired at now = 300. -/
theorem c5_witness :
    placeBidOnArtwork exC7db 99 3 150 5 = Except.error "No active auction for this artwork" ∧
    placeBidOnArtwork exC7db 10 3 150 300 = Except.error "Auction has already ended" :=
  ⟨(c5_theorem exC7db 99 3 150 5).1 (by with_unfolding_all rfl),
   (c5_theorem exC7db 10 3 150 300).2 ⟨1, 10, some 2, 100, none, 200, "open", none⟩
     (by with_unfolding_all rfl) (by norm_num)⟩

/-- C9 theorem (amended claim): cancel_auction is a no-op exactly when no
auction row with the id exists; when one exists it sets the status of every
row with that id to the requested terminal status, whatever the previous
status was (the refund of still-active bids is exhibited by the
counterexample). -/
theorem c9_theorem (db : DB) (auctionId : Nat) (st : String) :
    (db.auctions.find? (fun x => x.id == auctionId) = none →
      cancelAuction db auctionId st = db) ∧
    (∀ a, db.auctions.find? (fun x => x.id == auctionId) = some a →
      ∀ x ∈ (cancelAuction db auctionId st).auctions, x.id = auctionId → x.status = st) := by
  constructor
  · intro h
    unfold cancelAuction
    rw [h]
  · intro a ha x hx hid
    unfold cancelAuction at hx
    rw [ha] at hx
    simp only [updateAuctionRows, List.mem_map, refundActiveBids_auctions] at hx
    obtain ⟨y, _, hxy⟩ := hx
    by_cases hc : y.id = auctionId
    · simp only [hc, beq_self_eq_true, if_true] at hxy
      rw [← hxy]
    · have hfalse : (y.id == auctionId) = false := by simp [hc]
      rw [hfalse] at hxy
      simp at hxy
      rw [← hxy] at hid
      exact absurd hid hc

/-- Witness for c9_theorem: id 99 is absent from exC9db (no-op), and
cancelling the existing closed auction 1 sets its status to cancelled. -/
theorem c9_witness :
    cancelAuction exC9db 99 "cancelled" = exC9db ∧
    ∀ x ∈ (cancelAuction exC9db 1 "cancelled").auctions, x.id = 1 → x.status = "cancelled" :=
  ⟨(c9_theorem exC9db 99 "cancelled").1 (by with_unfolding_all rfl),
   (c9_theorem exC9db 1 "cancelled").2 ⟨1, 10, some 2, 100, none, 50, "closed", some 3⟩
     (by with_unfolding_all rfl)⟩

/-- find? by user id commutes with a map that preserves user ids. -/
theorem find?_userId_map (g : BalanceRow → BalanceRow) (hg : ∀ r, (g r).userId = r.userId) :
    ∀ (l : List BalanceRow) (v : Nat),
      (l.map g).find? (fun r => r.userId == v) = (l.find? (fun r => r.userId == v)).map g
  | [], _ => rfl
  | r :: l, v => by
    by_cases h : r.userId = v
    · have hb : (r.userId == v) = true := by simp [h]
      simp [List.find?_cons, hg, hb]
    · have hb : (r.userId == v) = false := by simp [h]
      simp only [List.map_cons, List.find?_cons, hg r, hb]
      exact find?_userId_map g hg l v

/-- Evaluating findBalance through an UPDATE of the balances table. -/
theorem findBalance_updateBalance (db : DB) (u : Nat) (f : BalanceRow → BalanceRow) (v : Nat)
    (hf : ∀ r, (f r).userId = r.userId) :
    findBalance (updateBalance db u f) v
      = (findBalance db v).map (fun r => if r.userId == u then f r else r) := by
  unfold findBalance updateBalance
  exact find?_userId_map _ (fun r => by by_cases h : r.userId = u <;> simp [h, hf]) db.balances v

/-- After INSERT OR IGNORE the user has a row holding the current balances. -/
theorem findBalance_ensure_self (db : DB) (u : Nat) :
    ∃ r, findBalance (ensureBalanceRow db u) u = some r ∧
      r.userId = u ∧ r.available = availOf db u ∧ r.pending = pendingOf db u := by
  unfold ensureBalanceRow
  cases h : findBalance db u with
  | some r =>
    refine ⟨r, ?_, ?_, ?_, ?_⟩
    · simp [h]
    · have := List.find?_some h
      simpa using this
    · simp [availOf, h]
    · simp [pendingOf, h]
  | none =>
    refine ⟨⟨u, 0, 0⟩, ?_, rfl, ?_, ?_⟩
    · simp only [h, Option.isSome_none, Bool.false_eq_true, if_false]
      unfold findBalance at h ⊢
      simp only [List.find?_append, h, Option.none_or]
      simp [List.find?_cons]
    · simp [availOf, h]
    · simp [pendingOf, h]

/-- The ledger hold of the bid route: available falls and pending rises by
exactly the held amount, whether or not the user had a balance row. -/
theorem holdDelta_balances (db : DB) (u : Nat) (x : Rat) :
    availOf (updateBalance (ensureBalanceRow db u) u
        (fun r => { r with available := r.available - x, pending := r.pending + x })) u
      = availOf db u - x ∧
    pendingOf (updateBalance (ensureBalanceRow db u) u
        (fun r => { r with available := r.available - x, pending := r.pending + x })) u
      = pendingOf db u + x := by
  obtain ⟨r, hr, hu, ha, hp⟩ := findBalance_ensure_self db u
  have hupd := findBalance_updateBalance (ensureBalanceRow db u) u
    (fun r => { r with available := r.available - x, pending := r.pending + x }) u (fun r => rfl)
  rw [hr] at hupd
  constructor
  · rw [availOf, hupd]
    simp [hu, ha]
  · rw [pendingOf, hupd]
    simp [hu, hp]

/-- C6 theorem: with an open, unexpired auction not owned by the bidder and
an existing active bid e of that bidder, the raise to amount v is admitted
exactly when v strictly exceeds the bidder's own previous amount e.amount —
the auction-wide current highest plays no role — and on success exactly the
delta v - e.amount moves from available to pending while the bid row keeps
its identity with the new amount. -/
theorem c6_theorem (db : DB) (artworkId userId : Nat) (v now : Rat) (a : Auction) (e : Bid)
    (ha : db.auctions.find? (fun x => x.artworkId == artworkId && x.status == "open") = some a)
    (hnotend : now < a.endTime)
    (hnotseller : ¬a.sellerId = some userId)
    (he : db.bids.find? (fun b => b.auctionId == a.id && b.bidderId == userId && b.isActive)
      = some e)
    (hbal : e.amount < v → v - e.amount ≤ availOf db userId) :
    ((∃ d, placeBidOnArtwork db artworkId userId v now = Except.ok d) ↔ e.amount < v) ∧
    (∀ d, placeBidOnArtwork db artworkId userId v now = Except.ok d →
      availOf d userId = availOf db userId - (v - e.amount) ∧
      pendingOf d userId = pendingOf db userId + (v - e.amount) ∧
      ∃ b ∈ d.bids, b.id = e.id ∧ b.bidderId = userId ∧ b.amount = v ∧ b.isActive) := by
  have hbid := List.find?_some he
  simp only [Bool.and_eq_true, beq_iff_eq] at hbid
  obtain ⟨⟨hea, heb⟩, hact⟩ := hbid
  unfold placeBidOnArtwork
  rw [ha]
  dsimp only
  rw [if_neg (not_le.mpr hnotend), if_neg hnotseller, he]
  dsimp only
  by_cases hlt : e.amount < v
  · have hpos : ¬v - e.amount ≤ 0 := by
      simp only [not_le, sub_pos]; exact hlt
    rw [if_neg hpos]
    have havail : ¬availOf
        { db with bids := db.bids.map (fun b =>
            if b.auctionId == a.id && b.bidderId == userId && b.id != e.id && b.isActive
            then { b with isActive := false } else b) } userId < v - e.amount := by
      exact not_lt.mpr (hbal hlt)
    rw [if_neg havail]
    constructor
    · simp [hlt]
    · intro d hd
      simp only [Except.ok.injEq] at hd
      subst hd
      refine ⟨?_, ?_, ?_⟩
      · simpa using (holdDelta_balances _ userId (v - e.amount)).1
      · simpa using (holdDelta_balances _ userId (v - e.amount)).2
      · have hmem : e ∈ db.bids := List.mem_of_find?_eq_some he
        refine ⟨{ e with amount := v }, ?_, rfl, heb, rfl, hact⟩
        simp only [insertTxn_bids, updateBalance_bids, ensureBalanceRow_bids]
        exact List.mem_map.mpr ⟨e, List.mem_map.mpr ⟨e, hmem, by simp⟩, by simp⟩
  · have hneg : v - e.amount ≤ 0 := by
      simp only [sub_nonpos]; exact not_lt.mp hlt
    rw [if_pos hneg]
    constructor
    · constructor
      · rintro ⟨d, hd⟩
        exact Except.noConfusion hd
      · intro h
        exact absurd h hlt
    · intro d hd
      exact Except.noConfusion hd

/-- Witness for c6_theorem at exC6db: user 3 raises their own 100 bid to 150
while user 5 leads at 500; the raise is admitted although 150 is far below
the auction-wide highest, and exactly the delta 50 moves to pending. -/
theorem c6_witness :
    ((∃ d, placeBidOnArtwork exC6db 10 3 150 10 = Except.ok d) ↔ (100 : Rat) < 150) ∧
    (∀ d, placeBidOnArtwork exC6db 10 3 150 10 = Except.ok d →
      availOf d 3 = availOf exC6db 3 - (150 - 100) ∧
      pendingOf d 3 = pendingOf exC6db 3 + (150 - 100) ∧
      ∃ b ∈ d.bids, b.id = 2 ∧ b.bidderId = 3 ∧ b.amount = 150 ∧ b.isActive) :=
  c6_theorem exC6db 10 3 150 10 ⟨1, 10, some 2, 100, none, 200, "open", none⟩ ⟨2, 1, 3, 100, true⟩
    (by with_unfolding_all rfl) (by norm_num) (by simp) (by with_unfolding_all rfl)
    (fun _ => by with_unfolding_all decide)

/-- C7 theorem (amended claim): with an open, unexpired auction not owned by
the bidder and no existing active bid of that bidder, the bid is admitted
exactly when the amount strictly exceeds min_bid (the current highest active
bid, falling back to start_price when there is none or it is zero) — so a
first bid equal to start_price is rejected — and on success the full amount
moves from available to pending and a fresh active bid row is created. -/
theorem c7_theorem (db : DB) (artworkId userId : Nat) (v now : Rat) (a : Auction)
    (ha : db.auctions.find? (fun x => x.artworkId == artworkId && x.status == "open") = some a)
    (hnotend : now < a.endTime)
    (hnotseller : ¬a.sellerId = some userId)
    (hnoex : db.bids.find? (fun b => b.auctionId == a.id && b.bidderId == userId && b.isActive)
      = none)
    (hbal : minBidOf db a < v → v ≤ availOf db userId) :
    ((∃ d, placeBidOnArtwork db artworkId userId v now = Except.ok d) ↔ minBidOf db a < v) ∧
    (∀ d, placeBidOnArtwork db artworkId userId v now = Except.ok d →
      availOf d userId = availOf db userId - v ∧
      pendingOf d userId = pendingOf db userId + v ∧
      ∃ b ∈ d.bids, b.auctionId = a.id ∧ b.bidderId = userId ∧ b.amount = v ∧ b.isActive) := by
  unfold placeBidOnArtwork
  rw [ha]
  dsimp only
  rw [if_neg (not_le.mpr hnotend), if_neg hnotseller, hnoex]
  dsimp only
  by_cases hlt : minBidOf db a < v
  · rw [if_neg (not_lt.mpr (hbal hlt)), if_neg (not_le.mpr hlt)]
    constructor
    · simp [hlt]
    · intro d hd
      simp only [Except.ok.injEq] at hd
      subst hd
      refine ⟨?_, ?_, ?_⟩
      · simpa using (holdDelta_balances (deactivateBidderBids db a.id userId) userId v).1
      · simpa using (holdDelta_balances (deactivateBidderBids db a.id userId) userId v).2
      · refine ⟨⟨nextBidId (updateBalance (ensureBalanceRow
          (deactivateBidderBids db a.id userId) userId) userId
          (fun r => { r with available := r.available - v, pending := r.pending + v })),
          a.id, userId, v, true⟩, ?_, rfl, rfl, rfl, rfl⟩
        simp only [insertTxn_bids]
        exact List.mem_append_right _ (List.mem_singleton.mpr rfl)
  · constructor
    · constructor
      · rintro ⟨d, hd⟩
        by_cases hav : availOf db userId < v
        · rw [if_pos hav] at hd
          exact Except.noConfusion hd
        · rw [if_neg hav, if_pos (not_lt.mp hlt)] at hd
          exact Except.noConfusion hd
      · intro h
        exact absurd h hlt
    · intro d hd
      by_cases hav : availOf db userId < v
      · rw [if_pos hav] at hd
        exact Except.noConfusion hd
      · rw [if_neg hav, if_pos (not_lt.mp hlt)] at hd
        exact Except.noConfusion hd

/-- Witness for c7_theorem at exC7db: with no bids and start_price 100, a
first bid of 150 is admitted and the full 150 is held. -/
theorem c7_witness :
    ((∃ d, placeBidOnArtwork exC7db 10 3 150 5 = Except.ok d)
        ↔ minBidOf exC7db ⟨1, 10, some 2, 100, none, 200, "open", none⟩ < 150) ∧
    (∀ d, placeBidOnArtwork exC7db 10 3 150 5 = Except.ok d →
      availOf d 3 = availOf exC7db 3 - 150 ∧
      pendingOf d 3 = pendingOf exC7db 3 + 150 ∧
      ∃ b ∈ d.bids, b.auctionId = 1 ∧ b.bidderId = 3 ∧ b.amount = 150 ∧ b.isActive) :=
  c7_theorem exC7db 10 3 150 5 ⟨1, 10, some 2, 100, none, 200, "open", none⟩
    (by with_unfolding_all rfl) (by norm_num) (by simp) (by with_unfolding_all rfl)
    (fun _ => by with_unfolding_all decide)

/-- A stored nonzero seller id resolves without touching the artwork table. -/
theorem resolveSellerId_some (db : DB) (a : Auction) (s : Nat)
    (hs : a.sellerId = some s) (hs0 : s ≠ 0) :
    resolveSellerId db a = Except.ok s := by
  unfold resolveSellerId
  rw [hs]
  dsimp only
  have hbeq : (s == 0) = false := by simpa using hs0
  rw [hbeq]
  simp

/-- A truthy winning bid. -/
theorem winTruthy_some (wb : Bid) (hw0 : wb.bidderId ≠ 0) (ha0 : wb.amount ≠ 0) :
    winTruthy (some wb) = true := by
  unfold winTruthy
  simp [hw0, ha0]

/-- Under a stored seller, a truthy winning bid and a met (or absent)
reserve, the app.py settlement takes exactly the successful-sale path. -/
theorem processEndedAuctionApp_sale_eq (db : DB) (a : Auction) (s : Nat) (wb : Bid)
    (hs : a.sellerId = some s) (hs0 : s ≠ 0)
    (hwb : findWinningBid db.bids a.id = some wb)
    (hw0 : wb.bidderId ≠ 0) (ha0 : wb.amount ≠ 0)
    (hrnm : reserveNotMetFlag (some wb) a.reservePrice = false) :
    processEndedAuctionApp db a = Except.ok (saleResultApp db a s wb) := by
  unfold processEndedAuctionApp
  rw [resolveSellerId_some db a s hs hs0]
  dsimp only
  rw [hwb, hrnm, winTruthy_some wb hw0 ha0]
  simp [saleResultApp, saleWritesApp, hw0]

/-- Under the same hypotheses the service settlement takes its
successful-sale path. -/
theorem processEndedAuctionSvc_sale_eq (db : DB) (a : Auction) (s : Nat) (wb : Bid)
    (hs : a.sellerId = some s) (hs0 : s ≠ 0)
    (hwb : findWinningBid db.bids a.id = some wb)
    (hw0 : wb.bidderId ≠ 0) (ha0 : wb.amount ≠ 0)
    (hrnm : reserveNotMetFlag (some wb) a.reservePrice = false) :
    processEndedAuctionSvc db a = Except.ok (saleResultSvc db a s wb) := by
  unfold processEndedAuctionSvc
  rw [resolveSellerId_some db a s hs hs0]
  dsimp only
  rw [hwb, hrnm, winTruthy_some wb hw0 ha0]
  simp [saleResultSvc, saleWritesSvc, hw0]

/-- Under a stored seller, a truthy winning bid and an unmet truthy reserve,
the service settlement takes the reserve-not-met path. -/
theorem processEndedAuctionSvc_reserve_eq (db : DB) (a : Auction) (s : Nat) (wb : Bid)
    (hs : a.sellerId = some s) (hs0 : s ≠ 0)
    (hwb : findWinningBid db.bids a.id = some wb)
    (hrnm : reserveNotMetFlag (some wb) a.reservePrice = true) :
    processEndedAuctionSvc db a = Except.ok (reserveResultSvc db a) := by
  unfold processEndedAuctionSvc
  rw [resolveSellerId_some db a s hs hs0]
  dsimp only
  rw [hwb, hrnm]
  simp [reserveResultSvc, reserveWritesSvc]

/-- The transactions table after one refund step: the bidder's pending bid
transactions flipped to cancelled, plus the appended bid_refund row. -/
theorem refundBidderStep_transactions (db : DB) (aId artId u : Nat) (tot : Rat) :
    (refundBidderStep db aId artId u tot).transactions
      = db.transactions.map (fun t =>
          if (some artId : Option Nat).isSome && t.userId == u && t.artworkId == some artId &&
             (t.type == "bid" || t.type == "bid_increase") && t.status == "pending"
          then { t with status := "cancelled" } else t)
        ++ [⟨u, "bid_refund", tot, "completed", some artId⟩] := by
  unfold refundBidderStep
  cases hb : findBalance db u <;> rfl

/-- A completed transaction at index i survives one refund step unchanged. -/
theorem refundBidderStep_txn_completed (db : DB) (aId artId u : Nat) (tot : Rat)
    (i : Nat) (t : Txn) (hi : db.transactions[i]? = some t) (ht : t.status = "completed") :
    (refundBidderStep db aId artId u tot).transactions[i]? = some t := by
  have hlen : i < db.transactions.length := (List.getElem?_eq_some_iff.mp hi).1
  rw [refundBidderStep_transactions, List.getElem?_append,
    if_pos (by simpa using hlen), List.getElem?_map, hi]
  have hc : (t.status == "pending") = false := by rw [ht]; rfl
  have hcond : ¬(((some artId : Option Nat).isSome && t.userId == u &&
      t.artworkId == some artId &&
      (t.type == "bid" || t.type == "bid_increase") && t.status == "pending") = true) := by
    simp [hc]
  rw [Option.map_some', if_neg hcond]

/-- A completed transaction at index i survives the whole refund loop. -/
theorem refundGroups_txn_completed (aId artId : Nat) :
    ∀ (gs : List (Nat × Rat)) (db : DB) (i : Nat) (t : Txn),
      db.transactions[i]? = some t → t.status = "completed" →
      (refundGroups db aId artId gs).transactions[i]? = some t
  | [], _, _, _, hi, _ => hi
  | g :: gs, db, i, t, hi, ht => by
    rw [refundGroups_cons]
    exact refundGroups_txn_completed aId artId gs _ i t
      (refundBidderStep_txn_completed db aId artId g.1 g.2 i t hi ht) ht

/-- The transactions table written by the app.py sale branch. -/
theorem saleWritesApp_transactions (db : DB) (a : Auction) (s : Nat) (w : Bid) :
    (saleWritesApp db a s w).transactions
      = (db.transactions.map (fun t =>
          if (some a.artworkId : Option Nat).isSome && t.userId == w.bidderId &&
             t.artworkId == some a.artworkId &&
             (t.type == "bid" || t.type == "bid_increase") && t.status == "pending"
          then { t with status := "completed" } else t)
          ++ [⟨w.bidderId, "purchase", w.amount, "completed", some a.artworkId⟩])
        ++ [⟨s, "sale", w.amount - w.amount * feeRate, "completed", some a.artworkId⟩] := by
  simp only [saleWritesApp, insertTxn, flipPendingBidTxns, creditSellerApp_transactions,
    spendPendingApp_transactions, updateArtworkRows_transactions, updateAuctionRows_transactions]

/-- C8 theorem (amended claim): on the app.py settlement path, every
originally-pending bid or bid_increase transaction of the winner for this
artwork is flipped to completed by the successful sale (and it stays
completed through the trailing loser refunds).  The scheduler path does not
do this — see the counterexample. -/
theorem c8_theorem (db : DB) (a : Auction) (s : Nat) (wb : Bid)
    (hs : a.sellerId = some s) (hs0 : s ≠ 0)
    (hwb : findWinningBid db.bids a.id = some wb)
    (hw0 : wb.bidderId ≠ 0) (ha0 : wb.amount ≠ 0)
    (hrnm : reserveNotMetFlag (some wb) a.reservePrice = false) :
    ∃ d, processEndedAuctionApp db a = Except.ok d ∧
      ∀ (i : Nat) (t : Txn), db.transactions[i]? = some t →
        t.userId = wb.bidderId → t.artworkId = some a.artworkId →
        (t.type = "bid" ∨ t.type = "bid_increase") → t.status = "pending" →
        d.transactions[i]? = some { t with status := "completed" } := by
  refine ⟨saleResultApp db a s wb,
    processEndedAuctionApp_sale_eq db a s wb hs hs0 hwb hw0 ha0 hrnm, ?_⟩
  intro i t hi hu hart hty hst
  have hlen : i < db.transactions.length := (List.getElem?_eq_some_iff.mp hi).1
  unfold saleResultApp
  apply refundGroups_txn_completed
  · rw [saleWritesApp_transactions, List.getElem?_append,
      if_pos (show i < _ by
        simp only [List.length_append, List.length_map, List.length_singleton]; omega),
      List.getElem?_append, if_pos (by simpa using hlen), List.getElem?_map, hi]
    have h1 : (t.userId == wb.bidderId) = true := by simp [hu]
    have h2 : (t.artworkId == some a.artworkId) = true := by simp [hart]
    have h3 : (t.type == "bid" || t.type == "bid_increase") = true := by
      cases hty with
      | inl h => simp [h]
      | inr h => simp [h]
    have h4 : (t.status == "pending") = true := by simp [hst]
    have hcond : ((some a.artworkId : Option Nat).isSome && t.userId == wb.bidderId &&
        t.artworkId == some a.artworkId &&
        (t.type == "bid" || t.type == "bid_increase") && t.status == "pending") = true := by
      simp [h1, h2, h3, h4]
    rw [Option.map_some', if_pos hcond]
  · rfl

/-- Witness for c8_theorem at exC1db: the winner's pending bid transaction
(index 0) is flipped to completed by the app.py path. -/
theorem c8_witness :
    ∃ d, processEndedAuctionApp exC1db exC1auction = Except.ok d ∧
      ∀ (i : Nat) (t : Txn), exC1db.transactions[i]? = some t →
        t.userId = 3 → t.artworkId = some 10 →
        (t.type = "bid" ∨ t.type = "bid_increase") → t.status = "pending" →
        d.transactions[i]? = some { t with status := "completed" } :=
  c8_theorem exC1db exC1auction 2 ⟨1, 1, 3, 200, true⟩
    (by with_unfolding_all rfl) (by norm_num) (by with_unfolding_all rfl)
    (by norm_num) (by with_unfolding_all decide) (by with_unfolding_all rfl)

/-- The ORDER BY amount DESC LIMIT 1 fold returns an element of the list (or
the accumulator) that bounds the accumulator and every element. -/
theorem foldl_pick_spec :
    ∀ (l : List Bid) (c : Bid),
      ∃ r, l.foldl (fun best b =>
          match best with
          | none => some b
          | some c => if b.amount > c.amount then some b else some c) (some c) = some r ∧
        (r ∈ l ∨ r = c) ∧ c.amount ≤ r.amount ∧ ∀ b ∈ l, b.amount ≤ r.amount
  | [], c => ⟨c, rfl, Or.inr rfl, le_refl _, by simp⟩
  | b :: l, c => by
    rw [List.foldl_cons]
    dsimp only
    by_cases h : b.amount > c.amount
    · rw [if_pos h]
      obtain ⟨r, hr, hmem, hle, hub⟩ := foldl_pick_spec l b
      refine ⟨r, hr, ?_, le_trans (le_of_lt h) hle, ?_⟩
      · cases hmem with
        | inl hm => exact Or.inl (List.mem_cons_of_mem _ hm)
        | inr hm => exact Or.inl (hm ▸ List.mem_cons_self b l)
      · intro x hx
        cases List.mem_cons.mp hx with
        | inl hxe => exact hxe ▸ hle
        | inr hxl => exact hub x hxl
    · rw [if_neg h]
      obtain ⟨r, hr, hmem, hle, hub⟩ := foldl_pick_spec l c
      refine ⟨r, hr, ?_, hle, ?_⟩
      · cases hmem with
        | inl hm => exact Or.inl (List.mem_cons_of_mem _ hm)
        | inr hm => exact Or.inr hm
      · intro x hx
        cases List.mem_cons.mp hx with
        | inl hxe => exact hxe ▸ le_trans (not_lt.mp h) hle
        | inr hxl => exact hub x hxl

/-- The winning bid is an active bid of the auction of maximal amount. -/
theorem findWinningBid_spec (bids : List Bid) (aId : Nat) (wb : Bid)
    (h : findWinningBid bids aId = some wb) :
    wb ∈ activeFor bids aId ∧ ∀ b ∈ activeFor bids aId, b.amount ≤ wb.amount := by
  unfold findWinningBid at h
  cases hl : activeFor bids aId with
  | nil => rw [hl] at h; exact Option.noConfusion h
  | cons b l =>
    rw [hl, List.foldl_cons] at h
    dsimp only at h
    obtain ⟨r, hr, hmem, hle, hub⟩ := foldl_pick_spec l b
    rw [hr] at h
    injection h with h
    subst h
    constructor
    · cases hmem with
      | inl hm => exact List.mem_cons_of_mem _ hm
      | inr hm => exact hm ▸ List.mem_cons_self b l
    · intro x hx
      cases List.mem_cons.mp hx with
      | inl hxe => exact hxe ▸ hle
      | inr hxl => exact hub x hxl

/-- The bids table after one refund step: this bidder's active bids of this
auction deactivated. -/
theorem refundBidderStep_bids (db : DB) (aId artId u : Nat) (tot : Rat) :
    (refundBidderStep db aId artId u tot).bids
      = db.bids.map (fun b => if b.auctionId == aId && b.bidderId == u && b.isActive
          then { b with isActive := false } else b) := by
  unfold refundBidderStep
  cases hb : findBalance db u <;> rfl

/-- A bid row of a bidder outside the refunded group keeps its position and
value through the refund loop. -/
theorem refundGroups_bids_winner (aId artId w : Nat) :
    ∀ (gs : List (Nat × Rat)) (db : DB), (∀ g ∈ gs, g.1 ≠ w) →
      ∀ (i : Nat) (b : Bid), db.bids[i]? = some b → b.bidderId = w →
      (refundGroups db aId artId gs).bids[i]? = some b
  | [], _, _, _, _, hi, _ => hi
  | g :: gs, db, hg, i, b, hi, hw => by
    rw [refundGroups_cons]
    have hstep : (refundBidderStep db aId artId g.1 g.2).bids[i]? = some b := by
      rw [refundBidderStep_bids, List.getElem?_map, hi, Option.map_some']
      have h1 : (b.bidderId == g.1) = false := by
        rw [hw]
        exact beq_eq_false_iff_ne.mpr (Ne.symm (hg g (List.mem_cons_self g gs)))
      rw [if_neg (by simp [h1])]
    exact refundGroups_bids_winner aId artId w gs _
      (fun x hx => hg x (List.mem_cons_of_mem _ hx)) i b hstep hw

/-- Every bid row after the refund loop is an original row, possibly
deactivated. -/
theorem refundGroups_bids_shape (aId artId : Nat) :
    ∀ (gs : List (Nat × Rat)) (db : DB) (b : Bid), b ∈ (refundGroups db aId artId gs).bids →
      b ∈ db.bids ∨ ∃ c ∈ db.bids, b = { c with isActive := false }
  | [], _, _, hb => Or.inl hb
  | g :: gs, db, b, hb => by
    rw [refundGroups_cons] at hb
    rcases refundGroups_bids_shape aId artId gs _ b hb with h | ⟨c, hc, rfl⟩
    · rw [refundBidderStep_bids] at h
      obtain ⟨c, hc, hcb⟩ := List.mem_map.mp h
      by_cases hcond : (c.auctionId == aId && c.bidderId == g.1 && c.isActive) = true
      · rw [if_pos hcond] at hcb
        exact Or.inr ⟨c, hc, hcb.symm⟩
      · rw [if_neg hcond] at hcb
        exact Or.inl (hcb ▸ hc)
    · rw [refundBidderStep_bids] at hc
      obtain ⟨e, he, heb⟩ := List.mem_map.mp hc
      by_cases hcond : (e.auctionId == aId && e.bidderId == g.1 && e.isActive) = true
      · rw [if_pos hcond] at heb
        exact Or.inr ⟨e, he, by rw [← heb]⟩
      · rw [if_neg hcond] at heb
        exact Or.inr ⟨e, he, by rw [← heb]⟩

/-- The losers query excludes the winner. -/
theorem loserGroups_keys_ne (bids : List Bid) (aId w : Nat) :
    ∀ g ∈ loserGroups bids aId w, g.1 ≠ w := by
  intro g hg
  unfold loserGroups at hg
  obtain ⟨u, hu, hgu⟩ := List.mem_map.mp hg
  obtain ⟨b, hb, hbu⟩ := List.mem_map.mp (List.mem_dedup.mp hu)
  have hbf := (List.mem_filter.mp hb).2
  rw [← hgu]
  dsimp only
  rw [← hbu]
  simpa using hbf

/-- MAX over a list containing m with every element at most m is m. -/
theorem max?_eq_of (l : List Rat) (m : Rat) (hm : m ∈ l) (hub : ∀ x ∈ l, x ≤ m) :
    l.max? = some m := by
  haveI : Std.Antisymm (fun x1 x2 : Rat => x1 ≤ x2) := ⟨fun h1 h2 => le_antisymm h1 h2⟩
  rw [List.max?_eq_some_iff (fun a => le_refl a) (fun a b => max_choice a b)
    (fun a b c => max_le_iff)]
  exact ⟨hm, hub⟩

/-- The app.py sale writes leave the bids table unchanged. -/
theorem saleWritesApp_bids (db : DB) (a : Auction) (s : Nat) (w : Bid) :
    (saleWritesApp db a s w).bids = db.bids := by
  simp [saleWritesApp]

/-- The service sale writes leave the bids table unchanged. -/
theorem saleWritesSvc_bids (db : DB) (a : Auction) (s : Nat) (w : Bid) :
    (saleWritesSvc db a s w).bids = db.bids := by
  simp [saleWritesSvc]

/-- After the sale writes and the loser refunds, the winner's rows are
positionally unchanged and the winner's amount is still the MAX over the
auction's active bids. -/
theorem refund_post_winner (db W : DB) (aId artId : Nat) (wb : Bid)
    (hWbids : W.bids = db.bids)
    (hmem : wb ∈ activeFor db.bids aId)
    (hub : ∀ b ∈ activeFor db.bids aId, b.amount ≤ wb.amount) :
    (∀ (i : Nat) (b : Bid), db.bids[i]? = some b → b.bidderId = wb.bidderId →
      (refundGroups W aId artId (loserGroups W.bids aId wb.bidderId)).bids[i]? = some b) ∧
    currentBid (refundGroups W aId artId (loserGroups W.bids aId wb.bidderId)).bids aId
      = some wb.amount := by
  have hkeys := loserGroups_keys_ne W.bids aId wb.bidderId
  have hframe : ∀ (i : Nat) (b : Bid), db.bids[i]? = some b → b.bidderId = wb.bidderId →
      (refundGroups W aId artId (loserGroups W.bids aId wb.bidderId)).bids[i]? = some b := by
    intro i b hi hb
    apply refundGroups_bids_winner aId artId wb.bidderId _ W hkeys i b _ hb
    rw [hWbids]
    exact hi
  refine ⟨hframe, ?_⟩
  have hwbmem : wb ∈ db.bids := List.mem_of_mem_filter hmem
  obtain ⟨i, hi⟩ := List.mem_iff_getElem?.mp hwbmem
  have hdi := hframe i wb hi rfl
  have hdmem : wb ∈ (refundGroups W aId artId (loserGroups W.bids aId wb.bidderId)).bids := by
    obtain ⟨hl, he⟩ := List.getElem?_eq_some_iff.mp hdi
    have hmm := List.getElem_mem hl
    rwa [he] at hmm
  have hpred : (wb.auctionId == aId && wb.isActive) = true := (List.mem_filter.mp hmem).2
  unfold currentBid
  apply max?_eq_of
  · exact List.mem_map.mpr ⟨wb, List.mem_filter.mpr ⟨hdmem, hpred⟩, rfl⟩
  · intro x hx
    obtain ⟨y, hy, hyx⟩ := List.mem_map.mp hx
    obtain ⟨hymem, hypred⟩ := List.mem_filter.mp hy
    rcases refundGroups_bids_shape aId artId _ W y hymem with hcase | ⟨c, _, rfl⟩
    · rw [hWbids] at hcase
      exact hyx ▸ hub y (List.mem_filter.mpr ⟨hcase, hypred⟩)
    · exfalso
      simp at hypred

/-- C10 theorem: on both successful-sale settlement paths only the losing
bidders' rows are deactivated; every bid row of the winner — in particular
the winning bid itself, with is_active still 1 — is left entirely unchanged
at its position, and the MAX over active bids of the now-closed auction
still returns the winning amount. -/
theorem c10_theorem (db : DB) (a : Auction) (s : Nat) (wb : Bid)
    (hs : a.sellerId = some s) (hs0 : s ≠ 0)
    (hwb : findWinningBid db.bids a.id = some wb)
    (hw0 : wb.bidderId ≠ 0) (ha0 : wb.amount ≠ 0)
    (hrnm : reserveNotMetFlag (some wb) a.reservePrice = false) :
    (∃ d, processEndedAuctionApp db a = Except.ok d ∧
      (∀ (i : Nat) (b : Bid), db.bids[i]? = some b → b.bidderId = wb.bidderId →
        d.bids[i]? = some b) ∧
      currentBid d.bids a.id = some wb.amount) ∧
    (∃ d, processEndedAuctionSvc db a = Except.ok d ∧
      (∀ (i : Nat) (b : Bid), db.bids[i]? = some b → b.bidderId = wb.bidderId →
        d.bids[i]? = some b) ∧
      currentBid d.bids a.id = some wb.amount) := by
  obtain ⟨hmem, hub⟩ := findWinningBid_spec db.bids a.id wb hwb
  constructor
  · refine ⟨saleResultApp db a s wb,
      processEndedAuctionApp_sale_eq db a s wb hs hs0 hwb hw0 ha0 hrnm, ?_⟩
    exact refund_post_winner db (saleWritesApp db a s wb) a.id a.artworkId wb
      (saleWritesApp_bids db a s wb) hmem hub
  · refine ⟨saleResultSvc db a s wb,
      processEndedAuctionSvc_sale_eq db a s wb hs hs0 hwb hw0 ha0 hrnm, ?_⟩
    exact refund_post_winner db (saleWritesSvc db a s wb) a.id a.artworkId wb
      (saleWritesSvc_bids db a s wb) hmem hub

/-- Witness for c10_theorem at exC10db: winner 3 at 200, loser 4 at 150. -/
theorem c10_witness :
    (∃ d, processEndedAuctionApp exC10db exC10auction = Except.ok d ∧
      (∀ (i : Nat) (b : Bid), exC10db.bids[i]? = some b → b.bidderId = 3 →
        d.bids[i]? = some b) ∧
      currentBid d.bids 1 = some 200) ∧
    (∃ d, processEndedAuctionSvc exC10db exC10auction = Except.ok d ∧
      (∀ (i : Nat) (b : Bid), exC10db.bids[i]? = some b → b.bidderId = 3 →
        d.bids[i]? = some b) ∧
      currentBid d.bids 1 = some 200) :=
  c10_theorem exC10db exC10auction 2 ⟨1, 1, 3, 200, true⟩
    (by with_unfolding_all rfl) (by norm_num) (by with_unfolding_all rfl)
    (by norm_num) (by with_unfolding_all decide) (by with_unfolding_all rfl)

/-- findBalance reads only the balances table. -/
theorem findBalance_eq_of (db1 db2 : DB) (h : db1.balances = db2.balances) (v : Nat) :
    findBalance db1 v = findBalance db2 v := by
  unfold findBalance
  rw [h]

/-- The balances table after one refund step. -/
theorem refundBidderStep_balances (db : DB) (aId artId u : Nat) (tot : Rat) :
    (refundBidderStep db aId artId u tot).balances
      = match findBalance db u with
        | some _ => db.balances.map (fun r => if r.userId == u
            then { r with available := r.available + tot, pending := max 0 (r.pending - tot) }
            else r)
        | none => db.balances ++ [⟨u, tot, 0⟩] := by
  unfold refundBidderStep
  cases hb : findBalance db u <;> simp [hb, updateBalance]

/-- One refund step credits the bidder's row exactly. -/
theorem refundBidderStep_findBalance_self (db : DB) (aId artId u : Nat) (tot : Rat)
    (r : BalanceRow) (hr : findBalance db u = some r) :
    findBalance (refundBidderStep db aId artId u tot) u
      = some { r with available := r.available + tot, pending := max 0 (r.pending - tot) } := by
  unfold findBalance
  rw [refundBidderStep_balances, hr]
  dsimp only
  rw [find?_userId_map _ (fun x => by by_cases hx : x.userId = u <;> simp [hx]) db.balances u]
  have hr' : db.balances.find? (fun x => x.userId == u) = some r := hr
  rw [hr', Option.map_some']
  have hru : (r.userId == u) = true := by
    have h := List.find?_some hr'
    simpa using h
  rw [if_pos hru]

/-- One refund step leaves every other user's row untouched. -/
theorem refundBidderStep_findBalance_other (db : DB) (aId artId u : Nat) (tot : Rat)
    (v : Nat) (hv : v ≠ u) :
    findBalance (refundBidderStep db aId artId u tot) v = findBalance db v := by
  cases hb : findBalance db u with
  | some r =>
    unfold findBalance
    rw [refundBidderStep_balances, hb]
    dsimp only
    rw [find?_userId_map _ (fun x => by by_cases hx : x.userId = u <;> simp [hx]) db.balances v]
    cases hfv : db.balances.find? (fun x => x.userId == v) with
    | none => rfl
    | some rv =>
      rw [Option.map_some']
      have h1 : rv.userId = v := by
        have h := List.find?_some hfv
        simpa using h
      have hne : (rv.userId == u) = false := beq_eq_false_iff_ne.mpr (h1 ▸ hv)
      rw [if_neg (by simp [hne])]
  | none =>
    unfold findBalance
    rw [refundBidderStep_balances, hb]
    dsimp only
    rw [List.find?_append]
    have h2 : ([(⟨u, tot, 0⟩ : BalanceRow)]).find? (fun x => x.userId == v) = none := by
      simp [List.find?_cons, beq_eq_false_iff_ne.mpr (Ne.symm hv)]
    rw [h2, Option.or_none]

/-- The refund loop leaves users outside the refunded group untouched. -/
theorem refundGroups_findBalance_frame (aId artId : Nat) :
    ∀ (gs : List (Nat × Rat)) (db : DB) (v : Nat), (∀ g ∈ gs, g.1 ≠ v) →
      findBalance (refundGroups db aId artId gs) v = findBalance db v
  | [], _, _, _ => rfl
  | g :: gs, db, v, hg => by
    rw [refundGroups_cons]
    rw [refundGroups_findBalance_frame aId artId gs _ v
      (fun x hx => hg x (List.mem_cons_of_mem _ hx))]
    exact refundBidderStep_findBalance_other db aId artId g.1 g.2 v
      (Ne.symm (hg g (List.mem_cons_self g gs)))

/-- The refund loop over a duplicate-free group list moves each group's total
from pending back to available on that bidder's balance row, exactly, given
each row's pending covers the total. -/
theorem refundGroups_refunds (aId artId : Nat) :
    ∀ (gs : List (Nat × Rat)) (db : DB),
      (gs.map Prod.fst).Nodup →
      (∀ p ∈ gs, ∃ r, findBalance db p.1 = some r ∧ p.2 ≤ r.pending) →
      ∀ p ∈ gs, ∃ r, findBalance db p.1 = some r ∧
        findBalance (refundGroups db aId artId gs) p.1
          = some { r with available := r.available + p.2, pending := r.pending - p.2 }
  | [], _, _, _, p, hp => absurd hp (List.not_mem_nil p)
  | g :: gs, db, hnd, hcov, p, hp => by
    rw [refundGroups_cons]
    have hnd2 : (g.1 :: gs.map Prod.fst).Nodup := by simpa using hnd
    have hgkey : g.1 ∉ gs.map Prod.fst := (List.nodup_cons.mp hnd2).1
    have hnd' : (gs.map Prod.fst).Nodup := (List.nodup_cons.mp hnd2).2
    cases List.mem_cons.mp hp with
    | inl hpe =>
      subst hpe
      obtain ⟨r, hr, hcovr⟩ := hcov p (List.mem_cons_self p gs)
      refine ⟨r, hr, ?_⟩
      rw [refundGroups_findBalance_frame aId artId gs _ p.1
        (fun x hx hxe => hgkey (hxe ▸ List.mem_map_of_mem Prod.fst hx))]
      rw [refundBidderStep_findBalance_self db aId artId p.1 p.2 r hr]
      have hmax : max 0 (r.pending - p.2) = r.pending - p.2 := max_eq_right (by linarith)
      rw [hmax]
    | inr hpl =>
      have hne : p.1 ≠ g.1 := fun h => hgkey (h ▸ List.mem_map_of_mem Prod.fst hpl)
      obtain ⟨r, hr, hcovr⟩ := hcov p (List.mem_cons_of_mem _ hpl)
      have hstep := refundBidderStep_findBalance_other db aId artId g.1 g.2 p.1 hne
      have hcov' : ∀ q ∈ gs, ∃ rq, findBalance (refundBidderStep db aId artId g.1 g.2) q.1
          = some rq ∧ q.2 ≤ rq.pending := by
        intro q hq
        obtain ⟨rq, hrq, hcq⟩ := hcov q (List.mem_cons_of_mem _ hq)
        have hneq : q.1 ≠ g.1 := fun h => hgkey (h ▸ List.mem_map_of_mem Prod.fst hq)
        exact ⟨rq, (refundBidderStep_findBalance_other db aId artId g.1 g.2 q.1 hneq).trans hrq,
          hcq⟩
      obtain ⟨r', hr', hres⟩ := refundGroups_refunds aId artId gs _ hnd' hcov' p hpl
      rw [hstep, hr] at hr'
      injection hr' with hr''
      rw [← hr''] at hres
      exact ⟨r, hr, hres⟩

/-- After the refund loop over a group list covering every active bidder of
the auction, no active bid of the auction remains. -/
theorem refundGroups_deactivates (aId artId : Nat) :
    ∀ (gs : List (Nat × Rat)) (db : DB),
      (∀ b ∈ db.bids, b.auctionId = aId → b.isActive = true → b.bidderId ∈ gs.map Prod.fst) →
      ∀ b ∈ (refundGroups db aId artId gs).bids, b.auctionId = aId → b.isActive = false
  | [], db, hall, b, hb, hba => by
    by_cases h : b.isActive = true
    · exact absurd (hall b hb hba h) (List.not_mem_nil _)
    · exact Bool.eq_false_iff.mpr h
  | g :: gs, db, hall, b, hb, hba => by
    rw [refundGroups_cons] at hb
    apply refundGroups_deactivates aId artId gs _ ?_ b hb hba
    intro c hc hca hcact
    rw [refundBidderStep_bids] at hc
    obtain ⟨e, he, hec⟩ := List.mem_map.mp hc
    by_cases hcond : (e.auctionId == aId && e.bidderId == g.1 && e.isActive) = true
    · rw [if_pos hcond] at hec
      exfalso
      rw [← hec] at hcact
      simp at hcact
    · rw [if_neg hcond] at hec
      subst hec
      have hmem := hall e he hca hcact
      rw [List.map_cons] at hmem
      rcases List.mem_cons.mp hmem with h1 | h2
      · exfalso
        apply hcond
        have hba' : (e.auctionId == aId) = true := by simp [hca]
        simp [hba', h1, hcact]
      · exact h2

/-- The reserve-path pre-refund writes leave bids and balances unchanged. -/
theorem reserveWritesSvc_bids (db : DB) (a : Auction) :
    (reserveWritesSvc db a).bids = db.bids := by
  simp [reserveWritesSvc]

theorem reserveWritesSvc_balances (db : DB) (a : Auction) :
    (reserveWritesSvc db a).balances = db.balances := by
  simp [reserveWritesSvc]

/-- The keys of the grouped refund query are the distinct active bidders. -/
theorem allGroups_keys (bids : List Bid) (aId : Nat) :
    (allGroups bids aId).map Prod.fst = ((activeFor bids aId).map (fun b => b.bidderId)).dedup := by
  unfold allGroups
  rw [List.map_map]
  have h : (Prod.fst ∘ fun u => (u, activeTotalOf bids aId u)) = id := rfl
  rw [h, List.map_id]

/-- C3 theorem: when the reserve is set, truthy and strictly above the
truthy winning bid, the service settlement closes the auction with winner
NULL, delists the artwork without changing its owner, refunds every active
bidder's total for this auction from pending back to available exactly
(given each bidder's pending covers the total), deactivates every bid of
the auction — and the highest bidder is among the refunded group. -/
theorem c3_theorem (db : DB) (a : Auction) (s : Nat) (wb : Bid) (rp : Rat)
    (hs : a.sellerId = some s) (hs0 : s ≠ 0)
    (hwb : findWinningBid db.bids a.id = some wb)
    (hw0 : wb.bidderId ≠ 0) (ha0 : wb.amount ≠ 0)
    (hrp : a.reservePrice = some rp) (hrp0 : rp ≠ 0) (hlt : wb.amount < rp)
    (hcov : ∀ p ∈ allGroups db.bids a.id, ∃ r, findBalance db p.1 = some r ∧ p.2 ≤ r.pending) :
    ∃ d, processEndedAuctionSvc db a = Except.ok d ∧
      (∀ x ∈ d.auctions, x.id = a.id → x.status = "closed" ∧ x.winnerId = none) ∧
      d.artworks = db.artworks.map (fun x => if x.id == a.artworkId
          then { x with isListed := false } else x) ∧
      (∀ p ∈ allGroups db.bids a.id, ∃ r, findBalance db p.1 = some r ∧
        findBalance d p.1 = some { r with available := r.available + p.2,
                                          pending := r.pending - p.2 }) ∧
      (∀ b ∈ d.bids, b.auctionId = a.id → b.isActive = false) ∧
      wb.bidderId ∈ (allGroups db.bids a.id).map Prod.fst := by
  have hrnm : reserveNotMetFlag (some wb) a.reservePrice = true := by
    unfold reserveNotMetFlag
    rw [hrp]
    simp [hw0, ha0, hrp0, hlt]
  have hWbids : (reserveWritesSvc db a).bids = db.bids := reserveWritesSvc_bids db a
  have hgroups : allGroups (reserveWritesSvc db a).bids a.id = allGroups db.bids a.id := by
    rw [hWbids]
  refine ⟨reserveResultSvc db a,
    processEndedAuctionSvc_reserve_eq db a s wb hs hs0 hwb hrnm, ?_, ?_, ?_, ?_, ?_⟩
  · intro x hx hid
    unfold reserveResultSvc at hx
    rw [refundGroups_auctions] at hx
    unfold reserveWritesSvc at hx
    rw [updateArtworkRows_auctions] at hx
    simp only [updateAuctionRows, List.mem_map] at hx
    obtain ⟨y, _, hxy⟩ := hx
    by_cases hc : y.id = a.id
    · simp only [hc, beq_self_eq_true, if_true] at hxy
      rw [← hxy]
      exact ⟨rfl, rfl⟩
    · have hfalse : (y.id == a.id) = false := by simp [hc]
      rw [hfalse] at hxy
      simp at hxy
      rw [← hxy] at hid
      exact absurd hid hc
  · unfold reserveResultSvc
    rw [refundGroups_artworks]
    rfl
  · intro p hp
    have hkeysnodup : ((allGroups db.bids a.id).map Prod.fst).Nodup := by
      rw [allGroups_keys]
      exact List.nodup_dedup _
    have hcovW : ∀ q ∈ allGroups db.bids a.id, ∃ r,
        findBalance (reserveWritesSvc db a) q.1 = some r ∧ q.2 ≤ r.pending := by
      intro q hq
      obtain ⟨r, hr, hc⟩ := hcov q hq
      exact ⟨r, (findBalance_eq_of _ db (reserveWritesSvc_balances db a) q.1).trans hr, hc⟩
    obtain ⟨r, hr, hres⟩ := refundGroups_refunds a.id a.artworkId (allGroups db.bids a.id)
      (reserveWritesSvc db a) hkeysnodup hcovW p hp
    refine ⟨r, ?_, ?_⟩
    · exact (findBalance_eq_of (reserveWritesSvc db a) db
        (reserveWritesSvc_balances db a) p.1).symm.trans hr
    · unfold reserveResultSvc
      rw [hgroups]
      exact hres
  · intro b hb hba
    unfold reserveResultSvc at hb
    apply refundGroups_deactivates a.id a.artworkId (allGroups (reserveWritesSvc db a).bids a.id)
      (reserveWritesSvc db a) ?_ b hb hba
    intro c hc hca hcact
    rw [allGroups_keys]
    rw [hWbids] at hc ⊢
    exact List.mem_dedup.mpr (List.mem_map_of_mem _
      (List.mem_filter.mpr ⟨hc, by simp [hca, hcact]⟩))
  · obtain ⟨hmem, _⟩ := findWinningBid_spec db.bids a.id wb hwb
    rw [allGroups_keys]
    exact List.mem_dedup.mpr (List.mem_map_of_mem _ hmem)

/-- Witness for c3_theorem at exC3db: reserve 300 unmet by the highest bid
200; both bidders 3 and 4 are refunded in full. -/
theorem c3_witness :
    ∃ d, processEndedAuctionSvc exC3db exC3auction = Except.ok d ∧
      (∀ x ∈ d.auctions, x.id = 1 → x.status = "closed" ∧ x.winnerId = none) ∧
      d.artworks = exC3db.artworks.map (fun x => if x.id == 10
          then { x with isListed := false } else x) ∧
      (∀ p ∈ allGroups exC3db.bids 1, ∃ r, findBalance exC3db p.1 = some r ∧
        findBalance d p.1 = some { r with available := r.available + p.2,
                                          pending := r.pending - p.2 }) ∧
      (∀ b ∈ d.bids, b.auctionId = 1 → b.isActive = false) ∧
      (3 : Nat) ∈ (allGroups exC3db.bids 1).map Prod.fst :=
  c3_theorem exC3db exC3auction 2 ⟨1, 1, 3, 200, true⟩ 300
    (by with_unfolding_all rfl) (by norm_num) (by with_unfolding_all rfl)
    (by norm_num) (by with_unfolding_all decide)
    (by with_unfolding_all rfl) (by norm_num) (by with_unfolding_all decide)
    (by with_unfolding_all decide)

/-- C1 counterexample: settlement is not idempotent and carries no
status-at-update guard.  From exC1db the seller-initiated close succeeds, and
a second close of the already-closed auction succeeds again and produces a
different final state: the seller is credited the proceeds a second time
(available 390 instead of 195) and duplicate purchase and sale transactions
are inserted. -/
theorem c1_counterexample :
    ∃ d1 d2, closeAuction exC1db 1 2 = Except.ok d1 ∧
      closeAuction d1 1 2 = Except.ok d2 ∧ d2 ≠ d1 ∧ availOf d2 2 = 390 ∧ availOf d1 2 = 195 :=
  ⟨_, _, by with_unfolding_all rfl, by with_unfolding_all rfl, by with_unfolding_all decide,
    by with_unfolding_all rfl, by with_unfolding_all rfl⟩

/-- C2: evaluation of the scheduler settlement path at the failing input.
Before settlement the ledger holds 300 in total and no fees were extracted;
AuctionService._process_successful_sale passes absolute balance values to
BalanceRepository.update, which adds numeric values to the columns, so after
settlement the total plus extracted fees is 600, not 300: money is created
and conservation fails. -/
theorem c2_code_bug_eval :
    (processEndedAuctionSvc exC2db exC2auction).map (fun d => totalMoney d + feesExtracted d)
        = Except.ok 600 ∧
      totalMoney exC2db + feesExtracted exC2db = 300 ∧ (600 : Rat) ≠ 300 :=
  ⟨by with_unfolding_all rfl, by with_unfolding_all rfl, by norm_num⟩

/-- C4 counterexample: in exC4db auction 1 settles successfully (its writes
exist and differ from the input state, and its id is counted as processed),
auction 2 fails, and because the whole batch shares one uncommitted
transaction, the rollback triggered by auction 2 discards auction 1's
writes: the committed final state is exactly the input state, with
auction 1 still open. -/
theorem c4_counterexample :
    processEndedAuctionsJob exC4db 100 = (exC4db, [1]) ∧
      (∃ a, exC4db.auctions.find? (fun x => x.id == 1) = some a ∧ a.status = "open" ∧
        ∃ d, processEndedAuctionSvc exC4db a = Except.ok d ∧ d ≠ exC4db) :=
  ⟨by with_unfolding_all rfl, ⟨_, rfl, rfl, ⟨_, by with_unfolding_all rfl, by with_unfolding_all decide⟩⟩⟩

/-- C7 counterexample: with no active bids, a first bid exactly equal to
start_price (100) by a sufficiently funded bidder is rejected, because the
admission check is "amount <= min_bid means reject" with min_bid falling back
to start_price. -/
theorem c7_counterexample :
    placeBidOnArtwork exC7db 10 3 100 5 = Except.error "Bid must exceed current price" := by
  with_unfolding_all rfl

/-- C8 counterexample: the scheduler settlement path
(AuctionService._process_successful_sale) completes the sale but leaves the
winner's originally-pending bid transaction with status pending — it is never
flipped to completed on this path. -/
theorem c8_counterexample :
    ∃ d, processEndedAuctionSvc exC8db exC8auction = Except.ok d ∧
      d.transactions[0]? = some ⟨3, "bid", 200, "pending", some 10⟩ :=
  ⟨_, by with_unfolding_all rfl, by with_unfolding_all rfl⟩

/-- C9 counterexample: cancelling an already-closed auction is not a no-op:
cancel_auction has no status guard, so the status moves closed to cancelled,
the winner's still-active bid is deactivated, and a ledger refund of 200 is
issued to the winner. -/
theorem c9_counterexample :
    (cancelAuction exC9db 1 "cancelled").auctions
        = [⟨1, 10, some 2, 100, none, 50, "cancelled", some 3⟩] ∧
      (cancelAuction exC9db 1 "cancelled").bids = [⟨1, 1, 3, 200, false⟩] ∧
      availOf (cancelAuction exC9db 1 "cancelled") 3 = 200 ∧
      cancelAuction exC9db 1 "cancelled" ≠ exC9db :=
  ⟨by with_unfolding_all rfl, by with_unfolding_all rfl, by with_unfolding_all rfl,
    by with_unfolding_all decide⟩

end EtherMon
